import Mathlib

/-!
Verification of the SFCC → Salesforce Knowledge synchronization engine.

This file gives a shallow embedding of the engine's core helpers
(`siteConfigHelper.js`, `contentMappingHelper.js`, `fieldTransformHelper.js`,
`salesforceKnowledgeHelper.js`) and proves properties of the embedded
definitions.

Modelling conventions:
* JavaScript values that flow through configuration, content assets and
  payloads are modelled by the inductive type `JVal` (null, boolean, number,
  string, object, array).  JS `undefined` for an absent object property is
  modelled by `objGet` returning `none`; an explicit `null` property is
  `JVal.null`.  JS numbers are modelled by `ℚ` (floating point rounding does
  not affect any property proved here).
* JS objects are modelled as association lists in insertion order; property
  assignment (`o[k] = v`) replaces the value in place when the key exists and
  appends otherwise (`objSet`), exactly as JS object semantics for the
  object literals the engine builds (a JS object can never hold a duplicate
  key, which is the `Nodup` hypothesis appearing in some theorems).
* `Date` values are modelled by their `getTime()` integer.
-/

namespace SFKC

/-- A JavaScript/JSON value as handled by the engine: null, boolean, number
(modelled as a rational), string, object (association list in insertion
order) or array. -/
inductive JVal where
  | null : JVal
  | bool (b : Bool) : JVal
  | num (q : ℚ) : JVal
  | str (s : String) : JVal
  | obj (entries : List (String × JVal)) : JVal
  | arr (elems : List JVal) : JVal

/-- JS truthiness of a value (`if (v)`): null, `false`, `0`, and the empty
string are falsy; every object and array is truthy. -/
def jsTruthy : JVal → Bool
  | .null => false
  | .bool b => b
  | .num q => decide (q ≠ 0)
  | .str s => decide (s ≠ "")
  | .obj _ => true
  | .arr _ => true

/-- JS `typeof v` (recall `typeof null` is `"object"`, and arrays are
`"object"` as well). -/
def jsTypeof : JVal → String
  | .null => "object"
  | .bool _ => "boolean"
  | .num _ => "number"
  | .str _ => "string"
  | .obj _ => "object"
  | .arr _ => "object"

/-- Property read `o[k]` on a JS object modelled as an association list:
the first entry with the key, `none` when the property is absent
(JS `undefined`). -/
def objGet : List (String × JVal) → String → Option JVal
  | [], _ => none
  | e :: es, k => if e.1 = k then some e.2 else objGet es k

/-- Property write `o[k] = v` on a JS object: replaces the value in place
when the key is present, appends a new entry otherwise. -/
def objSet : List (String × JVal) → String → JVal → List (String × JVal)
  | [], k, v => [(k, v)]
  | e :: es, k, v => if e.1 = k then (k, v) :: es else e :: objSet es k v

/-- The JS `for (key in src) { dst[key] = src[key] }` copy loop, starting
from accumulator `acc`.  Used by `mergeConfigurations`, `mergeStaticFields`
and `applyTransformsToFields`, which all copy objects this way. -/
def objCopy (src : List (String × JVal)) (acc : List (String × JVal)) :
    List (String × JVal) :=
  src.foldl (fun a e => objSet a e.1 e.2) acc

/-- JS `String.prototype.trim()`: strip leading and trailing
whitespace. -/
def jsTrim (s : String) : String :=
  String.mk
    (((s.data.dropWhile Char.isWhitespace).reverse.dropWhile
      Char.isWhitespace).reverse)

/-- JS `String.prototype.split(sep)` for a one-character separator
(`"".split(sep)` is `[""]`, and so is every empty segment). -/
def splitOnCharAux (sep : Char) : List Char → List Char → List String
  | [], acc => [String.mk acc.reverse]
  | c :: cs, acc =>
    if c = sep then String.mk acc.reverse :: splitOnCharAux sep cs []
    else splitOnCharAux sep cs (c :: acc)

/-- JS `s.split(sep)` for a one-character separator. -/
def jsSplitOnChar (sep : Char) (s : String) : List String :=
  splitOnCharAux sep s.data []

/-! ## Configuration resolver (`siteConfigHelper.js`) -/

/-- The `static` block of a configuration object: `config.static || {}`,
taken as an object.  A present but non-object `static` value contributes no
entries (the JS `for..in` copy loop over such a value copies no own
properties relevant to the merge). -/
def staticBlock (o : List (String × JVal)) : List (String × JVal) :=
  match objGet o "static" with
  | some (.obj es) => es
  | _ => []

/-- `allConfigs._defaults || {}` taken as an object
(`getSiteConfiguration`, siteConfigHelper.js line 67). -/
def defaultsBlock (allConfigs : List (String × JVal)) :
    List (String × JVal) :=
  match objGet allConfigs "_defaults" with
  | some (.obj es) => es
  | _ => []

/-- `mergeStaticFields(defaultStatic, siteStatic)`
(siteConfigHelper.js lines 130-148): copy all default static fields, then
override/add the site-specific static fields. -/
def mergeStaticFields (defaultStatic siteStatic : List (String × JVal)) :
    List (String × JVal) :=
  objCopy siteStatic (objCopy defaultStatic [])

/-- `mergeConfigurations(defaults, siteConfig)`
(siteConfigHelper.js lines 97-121): start with a copy of the defaults;
then for every site key, the site value completely replaces the default —
except the key `static`, which is set to
`mergeStaticFields(defaults.static || {}, siteConfig.static || {})`. -/
def mergeConfigurations (defaults siteConfig : List (String × JVal)) :
    List (String × JVal) :=
  let merged := objCopy defaults []
  siteConfig.foldl
    (fun acc e =>
      if e.1 = "static" then
        objSet acc "static"
          (.obj (mergeStaticFields (staticBlock defaults)
            (staticBlock siteConfig)))
      else objSet acc e.1 e.2)
    merged

/-- `getSiteConfiguration(allConfigs, siteID)`
(siteConfigHelper.js lines 53-83): empty site id is an error (`none`);
a missing or falsy site block yields the defaults alone; otherwise the
merged configuration. -/
def getSiteConfiguration (allConfigs : List (String × JVal))
    (siteID : String) : Option (List (String × JVal)) :=
  if jsTrim siteID = "" then none
  else
    let defaults := defaultsBlock allConfigs
    match objGet allConfigs siteID with
    | some sc =>
        if jsTruthy sc then
          some (mergeConfigurations defaults
            (match sc with | .obj es => es | _ => []))
        else some defaults
    | none => some defaults

/-! ## Delta filter (`contentMappingHelper.js`, `getContentAssets`) -/

/-- The per-record data the export-mode filter of `getContentAssets`
inspects: the `online` flag, `lastModified` and the sync-tracking custom
attribute `sfLastSyncDateTime` (both dates as `getTime()` values; `none`
models an absent date). -/
structure CAsset where
  online : Bool
  lastModified : Option Int
  sfLastSyncDateTime : Option Int

/-- The include/skip decision of the `getContentAssets` loop
(contentMappingHelper.js lines 80-114): offline assets are skipped; in
delta mode (`exportMode || 'delta'`) an asset with both dates present is
included iff `lastModified > lastSync`; an asset missing either date is
included; any other mode includes every online asset. -/
def includeAsset (exportMode : String) (a : CAsset) : Bool :=
  let mode := if exportMode = "" then "delta" else exportMode
  if a.online = false then false
  else if mode = "delta" then
    match a.sfLastSyncDateTime, a.lastModified with
    | some lastSync, some lastModified => decide (lastSync < lastModified)
    | _, _ => true
  else true

/-- The record-selection part of `getContentAssets`: the search results
filtered by the per-record decision. -/
def getContentAssets (assets : List CAsset) (exportMode : String) :
    List CAsset :=
  assets.filter (includeAsset exportMode)

/-! ## Transform engine (`fieldTransformHelper.js`) -/

/-- JS `String(v)` coercion: `null` → `"null"`, booleans and numbers to
their decimal text, strings unchanged, a plain object to
`"[object Object]"` (default `Object.prototype.toString`), an array to its
elements joined by commas (default `Array.prototype.toString`). -/
def jsString : JVal → String
  | .null => "null"
  | .bool true => "true"
  | .bool false => "false"
  | .num q => toString q
  | .str s => s
  | .obj _ => "[object Object]"
  | .arr es => String.intercalate "," (es.attach.map (fun e => jsString e.1))
decreasing_by
  simp_wf
  have h := List.sizeOf_lt_of_mem e.2
  omega

/-- `JSON.stringify` on the modelled values (used by
`convertToSalesforceSafeValue` as its last resort). -/
def jsonStringify : JVal → String
  | .null => "null"
  | .bool true => "true"
  | .bool false => "false"
  | .num q => toString q
  | .str s => "\x22" ++ s ++ "\x22"
  | .arr es =>
      "[" ++ String.intercalate ","
        (es.attach.map (fun e => jsonStringify e.1)) ++ "]"
  | .obj es =>
      "\x7b" ++ String.intercalate ","
        (es.attach.map (fun e =>
          "\x22" ++ e.1.1 ++ "\x22:" ++ jsonStringify e.1.2)) ++ "\x7d"
decreasing_by
  all_goals simp_wf
  · have h := List.sizeOf_lt_of_mem e.2
    omega
  · obtain ⟨⟨k, v⟩, hm⟩ := e
    have h := List.sizeOf_lt_of_mem hm
    simp only [Prod.mk.sizeOf_spec] at h
    simp only
    omega

/-- Replace every maximal run of characters satisfying `p` by `rep`
(the action of the regex substitution `/p+/g → rep` on a character list).
`inRun` records whether the previous character belonged to a run. -/
def replaceRunsAux (p : Char → Bool) (rep : List Char) :
    Bool → List Char → List Char
  | _, [] => []
  | inRun, c :: cs =>
    if p c then
      if inRun then replaceRunsAux p rep true cs
      else rep ++ replaceRunsAux p rep true cs
    else c :: replaceRunsAux p rep false cs

/-- Replace every maximal run of characters satisfying `p` by `rep`. -/
def replaceRuns (p : Char → Bool) (rep : List Char) (l : List Char) :
    List Char :=
  replaceRunsAux p rep false l

/-- `transformReplaceSpaces(value, replaceWith)`
(fieldTransformHelper.js lines 165-172): `value.replace(/\s+/g,
replaceWith)`.  The JS null/undefined parameter guard (defaulting to `-`)
is resolved by the callers in this model, which always pass a string. -/
def transformReplaceSpaces (value : String) (replaceWith : String) :
    String :=
  String.mk (replaceRuns Char.isWhitespace replaceWith.data value.data)

/-- `transformLowercase` (fieldTransformHelper.js line 233). -/
def transformLowercase (value : String) : String :=
  String.mk (value.data.map Char.toLower)

/-- `transformUppercase` (fieldTransformHelper.js line 246). -/
def transformUppercase (value : String) : String :=
  String.mk (value.data.map Char.toUpper)

/-- `transformRemoveSpaces` (fieldTransformHelper.js line 259):
`value.replace(/\s+/g, '')`. -/
def transformRemoveSpaces (value : String) : String :=
  String.mk (replaceRuns Char.isWhitespace [] value.data)

/-- Characters kept by `transformUrlSafe` step 3: the regex class
`[^a-z0-9<sep>]` removes everything that is not a lowercase letter, a
digit, or the separator itself. -/
def isUrlChar (sep : Char) (c : Char) : Bool :=
  decide (('a' ≤ c ∧ c ≤ 'z') ∨ ('0' ≤ c ∧ c ≤ '9')) || c == sep

/-- `transformUrlSafe(value, separator)`
(fieldTransformHelper.js lines 191-221): lowercase; replace whitespace
runs with the separator; strip every character outside `[a-z0-9]` and the
separator; collapse separator runs; trim leading/trailing separators.
The source takes the separator as a (regex-escaped) string; the escaping
exists to make an arbitrary single character safe inside the regex, and
the model takes that character directly. -/
def transformUrlSafe (value : String) (separator : Char) : String :=
  let lowered := value.data.map Char.toLower
  let replaced := replaceRuns Char.isWhitespace [separator] lowered
  let stripped := replaced.filter (isUrlChar separator)
  let collapsed := replaceRuns (fun c => c == separator) [separator] stripped
  let trimmed :=
    ((collapsed.dropWhile (fun c => c == separator)).reverse.dropWhile
      (fun c => c == separator)).reverse
  String.mk trimmed

/-- Adapter from the source's string-typed separator to the modelled
single-character one.  An empty separator makes the source's
`new RegExp(escapedSeparator + '+')` throw, which `applyTransform`
catches, returning its input; separators of two or more characters
exercise JS regex quantifier semantics outside this model's scope and are
modelled as the identity as well. -/
def transformUrlSafeStr (value : String) (separator : String) : String :=
  match separator.data with
  | [c] => transformUrlSafe value c
  | _ => value

/-- `transformReplace(value, config)`
(fieldTransformHelper.js lines 281-297).  A missing/falsy `pattern`
returns the input unchanged; the regex substitution itself is outside
this model's scope (no theorem relies on it) and is modelled as the
invalid-pattern path, which also returns the input unchanged. -/
def transformReplace (value : String) (config : List (String × JVal)) :
    String :=
  match objGet config "pattern" with
  | some p => if jsTruthy p then value else value
  | none => value

/-- A property read that only yields truthy values, modelling the JS
short-circuit chains `a.x || a.y || '-'`. -/
def truthyProp (es : List (String × JVal)) (k : String) : Option JVal :=
  match objGet es k with
  | some v => if jsTruthy v then some v else none
  | none => none

/-- The parameter chain `transform[k1] || transform[k2] || '-'` of the
object-notation transforms, coerced to a string as the regex replacement
coerces it. -/
def paramOr (es : List (String × JVal)) (k1 k2 : String) : String :=
  match truthyProp es k1 with
  | some v => jsString v
  | none =>
    match truthyProp es k2 with
    | some v => jsString v
    | none => "-"

/-- `applyStringTransform(value, transform, fieldName)`
(fieldTransformHelper.js lines 81-106): split on `:`, the first part is
the transform name, the rest (re-joined with `:`) the parameter; unknown
names return the value unchanged. -/
def applyStringTransform (value : String) (transform : String) : String :=
  let parts := jsSplitOnChar ':' transform
  let transformName := parts.headD ""
  let parameter : Option String :=
    if parts.length > 1 then some (String.intercalate ":" parts.tail)
    else none
  match transformName with
  | "replaceSpaces" => transformReplaceSpaces value (parameter.getD "-")
  | "urlSafe" => transformUrlSafeStr value (parameter.getD "-")
  | "lowercase" => transformLowercase value
  | "uppercase" => transformUppercase value
  | "removeSpaces" => transformRemoveSpaces value
  | _ => value

/-- `applyObjectTransform(value, transform, fieldName)`
(fieldTransformHelper.js lines 118-149): a missing or falsy `type`
returns the value; a non-string `type` falls through the switch default;
unknown types return the value unchanged. -/
def applyObjectTransform (value : String) (es : List (String × JVal)) :
    String :=
  match truthyProp es "type" with
  | none => value
  | some t =>
    match t with
    | .str ty =>
      match ty with
      | "replaceSpaces" => transformReplaceSpaces value (paramOr es "with" "replaceWith")
      | "urlSafe" => transformUrlSafeStr value (paramOr es "with" "separator")
      | "lowercase" => transformLowercase value
      | "uppercase" => transformUppercase value
      | "removeSpaces" => transformRemoveSpaces value
      | "replace" => transformReplace value es
      | _ => value
    | _ => value

/-- `applyTransform(value, transform, fieldName)`
(fieldTransformHelper.js lines 31-68): a falsy value short-circuits to
itself; a non-string value is coerced with `String(value)` before
transforming (so even the invalid-transform fallback returns the coerced
string); object notation dispatches to `applyObjectTransform` (an array
has no own `type` property, hence returns the value), string notation to
`applyStringTransform`; any other transform shape returns the value. -/
def applyTransform (value : JVal) (transform : JVal)
    (fieldName : String) : JVal :=
  if jsTruthy value = false then value
  else
    let v := jsString value
    match transform with
    | .obj es => .str (applyObjectTransform v es)
    | .arr _ => .str v
    | .str t => .str (applyStringTransform v t)
    | _ => .str v

/-- `applyMultipleTransforms(value, transforms, fieldName)`
(fieldTransformHelper.js lines 311-324): fold the value through the
ordered list of specs, left to right. -/
def applyMultipleTransforms (value : JVal) (transforms : List JVal)
    (fieldName : String) : JVal :=
  transforms.foldl (fun v t => applyTransform v t fieldName) value

/-- `applyTransformsToFields(mappedFields, transforms)`
(fieldTransformHelper.js lines 339-373): copy all mapped fields, then for
every transform entry whose field is present in the copy, replace that
field's value by the (possibly chained) transform result; transform
entries for absent fields only log a warning. -/
def applyTransformsToFields (mappedFields : List (String × JVal))
    (transforms : List (String × JVal)) : List (String × JVal) :=
  let result := objCopy mappedFields []
  transforms.foldl
    (fun acc e =>
      match objGet acc e.1 with
      | some originalValue =>
        match e.2 with
        | .arr ts => objSet acc e.1 (applyMultipleTransforms originalValue ts e.1)
        | t => objSet acc e.1 (applyTransform originalValue t e.1)
      | none => acc)
    result

/-! ## Field mapper (`contentMappingHelper.js`) -/

/-- `getNestedProperty(obj, path)` (contentMappingHelper.js lines 458-482):
dot-segment traversal, trimming each segment and skipping empty ones; a
falsy object or empty path, a missing property, or traversal into a
non-object all yield null (JS `undefined` results are conflated with null
here, exactly as `convertToSalesforceSafeValue` treats them). -/
def getNestedProperty (obj : JVal) (path : String) : JVal :=
  if jsTruthy obj = false ∨ path = "" then .null
  else
    (jsSplitOnChar '.' path).foldl
      (fun current part =>
        let p := jsTrim part
        if p = "" then current
        else
          match current with
          | .obj es =>
            match objGet es p with
            | some v => v
            | none => .null
          | _ => .null)
      obj

/-- The property read `value.markup` / `value.source` as
`convertToSalesforceSafeValue` uses it: present and not null. -/
def nonNullProp (es : List (String × JVal)) (k : String) : Option JVal :=
  match objGet es k with
  | some .null => none
  | some v => some v
  | none => none

/-- `convertToSalesforceSafeValue(value)`
(contentMappingHelper.js lines 266-310): null/undefined pass through as
null; primitives pass through; an object exposing a non-null `markup` or
`source` payload is unwrapped to `String(...)` of it; otherwise the
default `toString` is used when it yields a non-empty string other than
`"[object Object]"` (which is what an array's joined elements give), and
`JSON.stringify` is the last resort. -/
def convertToSalesforceSafeValue (value : JVal) : JVal :=
  match value with
  | .null => .null
  | .str s => .str s
  | .num q => .num q
  | .bool b => .bool b
  | .obj es =>
    match nonNullProp es "markup" with
    | some m => .str (jsString m)
    | none =>
      match nonNullProp es "source" with
      | some m => .str (jsString m)
      | none =>
        let sv := jsString (.obj es)
        if sv ≠ "" ∧ sv ≠ "[object Object]" then .str sv
        else .str (jsonStringify (.obj es))
  | .arr es =>
    let sv := jsString (.arr es)
    if sv ≠ "" ∧ sv ≠ "[object Object]" then .str sv
    else .str (jsonStringify (.arr es))

/-- The payload-inclusion test of `mapContentToArticle`
(contentMappingHelper.js line 391):
`value !== null && value !== undefined && value !== ''`. -/
def includedValue : JVal → Bool
  | .null => false
  | .str s => decide (s ≠ "")
  | _ => true

/-- `mapContentToArticle(contentAsset, articleType, fieldMapping,
dataCategory, isCreate, enableDebugLogging)`
(contentMappingHelper.js lines 336-439): start from the
`attributes.type` envelope; for every mapping entry resolve the source
path, convert to a Salesforce-safe value, and include the target field
only when the safe value is non-null and non-empty; add the `Language`
system field only on creation; attach a single-category selection when a
data category is configured. -/
def mapContentToArticle (contentAsset : JVal) (articleType : String)
    (fieldMapping : List (String × String)) (dataCategory : Option String)
    (isCreate : Bool) : List (String × JVal) :=
  let article0 : List (String × JVal) :=
    [("attributes", .obj [("type", .str articleType)])]
  let article1 := fieldMapping.foldl
    (fun article e =>
      let rawValue := getNestedProperty contentAsset e.2
      let value := convertToSalesforceSafeValue rawValue
      if includedValue value then objSet article e.1 value else article)
    article0
  let article2 :=
    if isCreate then objSet article1 "Language" (.str "en_US") else article1
  match dataCategory with
  | some dc =>
    if jsTrim dc ≠ "" then
      objSet article2 "DataCategorySelections"
        (.obj [("DataCategory", .str dc)])
    else article2
  | none => article2

/-! ## Configuration validation (`siteConfigHelper.js`,
`validateConfiguration`) -/

/-- Result shape `{valid, errors[], warnings[]}` of the validators. -/
structure ValidationResult where
  valid : Bool
  errors : List String
  warnings : List String

/-- `validateContentFolderIDs(folderIDs)`
(siteConfigHelper.js lines 306-335): falsy is required-error; a string
must have non-blank content; an array must be non-empty and contain only
non-blank strings. -/
def validateContentFolderIDs (folderIDs : JVal) : Bool × Option String :=
  if jsTruthy folderIDs = false then
    (false, some "contentFolderIDs is required")
  else
    match folderIDs with
    | .str s =>
      if jsTrim s = "" then
        (false, some "contentFolderIDs cannot be empty string")
      else (true, none)
    | .arr es =>
      if es.length = 0 then
        (false, some "contentFolderIDs array cannot be empty")
      else if es.all (fun v =>
          match v with
          | .str s => decide (jsTrim s ≠ "")
          | _ => false) then
        (true, none)
      else
        (false, some "contentFolderIDs array must contain non-empty strings")
    | _ => (false, some "contentFolderIDs must be a string or array of strings")

/-- The transform names `validateTransforms` recognizes
(siteConfigHelper.js line 356). -/
def supportedTransforms : List String :=
  ["replaceSpaces", "urlSafe", "lowercase", "uppercase", "removeSpaces",
   "replace"]

/-- One step of the `validateTransforms` loop
(siteConfigHelper.js lines 358-389): string notation warns on unknown
names; object notation errors on a falsy or non-string `type` and warns
on unknown types (an array has no own `type`, so it takes the falsy-type
error); any other shape is a shape error. -/
def validateTransformEntry (acc : ValidationResult)
    (fieldName : String) (transform : JVal) : ValidationResult :=
  match transform with
  | .str t =>
    if supportedTransforms.contains ((jsSplitOnChar ':' t).headD "") then
      acc
    else
      ⟨acc.valid, acc.errors,
        acc.warnings ++ ["Unknown transform \x22" ++
          ((jsSplitOnChar ':' t).headD "") ++
          "\x22 for field " ++ fieldName]⟩
  | .obj tes =>
    (match truthyProp tes "type" with
     | none =>
       ⟨false, acc.errors ++ ["Transform object for field " ++ fieldName ++
         " must have a \x22type\x22 property"], acc.warnings⟩
     | some (.str ty) =>
       if supportedTransforms.contains ty then acc
       else
         ⟨acc.valid, acc.errors,
           acc.warnings ++ ["Unknown transform type \x22" ++ ty ++
             "\x22 for field " ++ fieldName]⟩
     | some _ =>
       ⟨false, acc.errors ++ ["Transform type for field " ++ fieldName ++
         " must be a string"], acc.warnings⟩)
  | .arr _ =>
    ⟨false, acc.errors ++ ["Transform object for field " ++ fieldName ++
      " must have a \x22type\x22 property"], acc.warnings⟩
  | _ =>
    ⟨false, acc.errors ++ ["Transform for field " ++ fieldName ++
      " must be a string or object"], acc.warnings⟩

/-- The `validateTransforms` loop over the entries of the transforms
object (an array input is iterated with its indices as field names, as
JS `for..in` does). -/
def validateTransformsEntries (entries : List (String × JVal)) :
    ValidationResult :=
  entries.foldl (fun acc e => validateTransformEntry acc e.1 e.2)
    ⟨true, [], []⟩

/-- `validateTransforms(transforms)` (siteConfigHelper.js lines 343-392). -/
def validateTransforms (transforms : JVal) : ValidationResult :=
  match transforms with
  | .obj es => validateTransformsEntries es
  | .arr aes =>
    validateTransformsEntries (aes.enum.map (fun p => (toString p.1, p.2)))
  | _ => ⟨false, ["transforms must be an object"], []⟩

/-- The `batchSize` error message of `validateConfiguration`
(siteConfigHelper.js line 205). -/
def batchSizeErrorMsg : String :=
  "batchSize must be a number between 1 and 500"

/-- The check `config.<key> && typeof config.<key> !== 'string'`
(used for `articleType`, `recordTypeName`, `dataCategory`). -/
def checkStringPref (ces : List (String × JVal)) (key : String) :
    List String :=
  match truthyProp ces key with
  | some v => if jsTypeof v ≠ "string" then [key ++ " must be a string"] else []
  | none => []

/-- The check `config.<key> !== undefined && typeof ... !== 'boolean'`
(used for `publishArticles`, `enableDebugLogging`, `autoCreateFields`). -/
def checkBooleanPref (ces : List (String × JVal)) (key : String) :
    List String :=
  match objGet ces key with
  | some (.bool _) => []
  | some _ => [key ++ " must be a boolean"]
  | none => []

/-- The check `config.<key> && typeof config.<key> !== 'object'`
(used for `static` and `fieldMetadata`). -/
def checkObjectPref (ces : List (String × JVal)) (key : String) :
    List String :=
  match truthyProp ces key with
  | some v => if jsTypeof v ≠ "object" then [key ++ " must be an object"] else []
  | none => []

/-- The `contentFolderIDs` check of `validateConfiguration`
(siteConfigHelper.js lines 194-200). -/
def checkContentFolderIDs (ces : List (String × JVal)) : List String :=
  match truthyProp ces "contentFolderIDs" with
  | some v =>
    if (validateContentFolderIDs v).1 then []
    else ["contentFolderIDs: " ++ (validateContentFolderIDs v).2.getD ""]
  | none => []

/-- The `batchSize` check of `validateConfiguration`
(siteConfigHelper.js lines 203-208): present and either not a number or
outside `[1, 500]` is an error; integrality is not checked. -/
def checkBatchSize (ces : List (String × JVal)) : List String :=
  match objGet ces "batchSize" with
  | some (.num q) => if q < 1 ∨ 500 < q then [batchSizeErrorMsg] else []
  | some _ => [batchSizeErrorMsg]
  | none => []

/-- The condition under which the `batchSize` check errors: present and
either not a number or a number outside `[1, 500]`. -/
def batchSizeBad : JVal → Bool
  | .num q => decide (q < 1 ∨ 500 < q)
  | _ => true

/-- The `exportMode` check of `validateConfiguration`
(siteConfigHelper.js lines 211-214). -/
def checkExportMode (ces : List (String × JVal)) : List String :=
  match truthyProp ces "exportMode" with
  | some (.str "delta") => []
  | some (.str "full") => []
  | some _ => ["exportMode must be \x22delta\x22 or \x22full\x22"]
  | none => []

/-- The `fieldMapping` check of `validateConfiguration`
(siteConfigHelper.js lines 235-242): a truthy non-object is an error, an
object with no keys only a warning.  Returns (errors, warnings). -/
def checkFieldMapping (ces : List (String × JVal)) :
    List String × List String :=
  match truthyProp ces "fieldMapping" with
  | some (.obj es) => ([], if es.length = 0 then ["fieldMapping is empty"] else [])
  | some (.arr es) => ([], if es.length = 0 then ["fieldMapping is empty"] else [])
  | some _ => (["fieldMapping must be an object"], [])
  | none => ([], [])

/-- The `transforms` check of `validateConfiguration`
(siteConfigHelper.js lines 245-254). -/
def checkTransforms (ces : List (String × JVal)) :
    List String × List String :=
  match truthyProp ces "transforms" with
  | some v =>
    let r := validateTransforms v
    (r.errors, r.warnings)
  | none => ([], [])

/-- The body of `validateConfiguration` for an object-typed configuration
(siteConfigHelper.js lines 187-295).  The source pushes errors
imperatively, setting `valid = false` with every push and never
resetting it; the result is therefore the concatenation of the
per-check error lists, in source order, with `valid` exactly when no
error was pushed. -/
def validateConfigObject (ces : List (String × JVal)) : ValidationResult :=
  let errors :=
    checkStringPref ces "articleType" ++
    checkContentFolderIDs ces ++
    checkBatchSize ces ++
    checkExportMode ces ++
    checkBooleanPref ces "publishArticles" ++
    checkBooleanPref ces "enableDebugLogging" ++
    checkBooleanPref ces "autoCreateFields" ++
    (checkFieldMapping ces).1 ++
    (checkTransforms ces).1 ++
    checkObjectPref ces "static" ++
    checkObjectPref ces "fieldMetadata" ++
    checkStringPref ces "recordTypeName" ++
    checkStringPref ces "dataCategory"
  let warnings := (checkFieldMapping ces).2 ++ (checkTransforms ces).2
  ⟨errors.isEmpty, errors, warnings⟩

/-- `validateConfiguration(config, siteID)`
(siteConfigHelper.js lines 174-296): a falsy or non-object configuration
fails immediately; a JS array passes the `typeof` guard but has none of
the checked properties. -/
def validateConfiguration (config : JVal) (siteID : String) :
    ValidationResult :=
  match config with
  | .obj ces => validateConfigObject ces
  | .arr _ => validateConfigObject []
  | _ =>
    ⟨false, ["Configuration is not a valid object for site: " ++ siteID], []⟩

/-! ## Knowledge API helper (`salesforceKnowledgeHelper.js`), control-flow
embedding

The functions below embed the helper's control flow directly: every
outcome of a remote service call is an explicit argument (the service
framework itself is an out-of-scope collaborator).  A call result carries
the transport status (`status === 'OK'`), the parsed `{success,
errorMessage, data}` envelope when one was produced, and the service-level
error message. -/

/-- The `{success, errorMessage, data}` envelope of a service response. -/
structure SvcObj (α : Type) where
  success : Bool
  errorMessage : Option String
  data : α

/-- A service call result: transport status, optional parsed envelope,
service-level error message. -/
structure SvcResp (α : Type) where
  statusOK : Bool
  object : Option (SvcObj α)
  errorMessage : Option String

/-- The success test the helper applies to every call:
`result.status === 'OK' && result.object && result.object.success`. -/
def respOk {α : Type} (r : SvcResp α) : Bool :=
  r.statusOK &&
    (match r.object with
     | some o => o.success
     | none => false)

/-- The payload of a successful response (`result.object.data`); the
default is never reached when `respOk` holds. -/
def respData {α : Type} (r : SvcResp α) (dflt : α) : α :=
  match r.object with
  | some o => o.data
  | none => dflt

/-- The error-message plumbing
`result.object ? result.object.errorMessage : (result.errorMessage ||
fallback)` used by the helper's failure branches. -/
def svcErrorOr {α : Type} (r : SvcResp α) (fallback : String) : String :=
  match r.object with
  | some o => o.errorMessage.getD "undefined"
  | none =>
    match r.errorMessage with
    | some e => if e = "" then fallback else e
    | none => fallback

/-- The payload of the create / edit-online calls: `data.id`. -/
structure CreateData where
  id : String

/-- One row of an article query. -/
structure ArticleRec where
  Id : String
  KnowledgeArticleId : String
  PublishStatus : String
  VersionNumber : Int
deriving DecidableEq

/-- The payload of a query call: `data.records`. -/
structure QueryData where
  records : List ArticleRec

/-- One entry of the Actions API response array. -/
structure ActionResult where
  isSuccess : Bool
  errors : List String

/-- A `{success, error}` result of `publishArticle` /
`editOnlineArticle`. -/
structure SimpleResult where
  success : Bool
  error : Option String

/-- The result of `editOnlineArticle`. -/
structure EditResult where
  success : Bool
  draftId : Option String
  error : Option String

/-- The result shape of `upsertKnowledgeArticle` and the functions it
delegates to; absent JS keys are `none`. -/
structure UpsertResult where
  success : Bool
  knowledgeArticleId : Option String
  versionId : Option String
  operation : Option String
  publishStatus : Option String
  error : Option String
  warning : Option String
deriving DecidableEq

/-- The fields of a found article that `updateArticleWithVersioning`
reads. -/
structure ExistingArticle where
  Id : String
  KnowledgeArticleId : String
  PublishStatus : String

/-- `editOnlineArticle` (salesforceKnowledgeHelper.js lines 630-672),
given the outcome of its POST to
`knowledgeManagement/articleVersions/masterVersions`. -/
def editOnlineArticle (result : SvcResp CreateData) : EditResult :=
  if respOk result = true then
    ⟨true, some (respData result ⟨""⟩).id, none⟩
  else
    ⟨false, none, some (svcErrorOr result "Failed to create draft version")⟩

/-- `publishArticle` (salesforceKnowledgeHelper.js lines 688-755), given
the outcome of its Actions API call: on a successful call the first array
entry's `isSuccess` decides; an empty/non-array payload is an error. -/
def publishArticle (result : SvcResp (List ActionResult)) : SimpleResult :=
  if respOk result = true then
    match respData result [] with
    | a :: _ =>
      if a.isSuccess then ⟨true, none⟩
      else
        ⟨false, some (if a.errors.isEmpty then "Publish failed"
          else String.intercalate "," a.errors)⟩
    | [] => ⟨false, some "Unexpected response structure from Actions API"⟩
  else ⟨false, some (svcErrorOr result "Publish failed")⟩

/-- `updateArticleWithVersioning`
(salesforceKnowledgeHelper.js lines 340-461): an Online article first
gets a draft via `editOnlineArticle` (failure aborts); a Draft, or any
other status (with a warning), is updated directly under its own id; the
PATCH outcome decides success; then, only when `publishArticles` is set,
the draft is published — publish failure still reports success with a
warning and `publishStatus` draft. -/
def updateArticleWithVersioning (existingArticle : ExistingArticle)
    (publishArticles : Bool)
    (editResp : SvcResp CreateData)
    (updateResp : SvcResp Unit)
    (publishResp : SvcResp (List ActionResult)) : UpsertResult :=
  let draftStep : Sum UpsertResult String :=
    if existingArticle.PublishStatus = "Online" then
      let editResult := editOnlineArticle editResp
      if editResult.success then .inr (editResult.draftId.getD "")
      else
        .inl ⟨false, none, none, some "edit_online", none,
          some ("Failed to create draft: " ++ editResult.error.getD ""),
          none⟩
    else if existingArticle.PublishStatus = "Draft" then
      .inr existingArticle.Id
    else
      .inr existingArticle.Id
  match draftStep with
  | .inl failure => failure
  | .inr draftId =>
    if respOk updateResp = false then
      ⟨false, none, none, some "update_draft", none,
        some ("Failed to update draft: " ++
          svcErrorOr updateResp "Update failed"), none⟩
    else if publishArticles then
      let publishResult := publishArticle publishResp
      if publishResult.success = false then
        ⟨true, some existingArticle.KnowledgeArticleId, some draftId,
          some "update", some "draft", none,
          some ("Publish failed: " ++ publishResult.error.getD "")⟩
      else
        ⟨true, some existingArticle.KnowledgeArticleId, some draftId,
          some "update", some "online", none, none⟩
    else
      ⟨true, some existingArticle.KnowledgeArticleId, some draftId,
        some "update", some "draft", none, none⟩

/-- `createArticle` (salesforceKnowledgeHelper.js lines 477-612): on a
successful POST the helper re-queries for the `KnowledgeArticleId` of the
new version; when that query fails or returns no records it falls back to
the returned version id; then, only when `publishArticles` is set, the
new version is published, with the same warning-on-failure behavior as
the update path. -/
def createArticle (publishArticles : Bool)
    (createResp : SvcResp CreateData)
    (queryResp : SvcResp QueryData)
    (publishResp : SvcResp (List ActionResult)) : UpsertResult :=
  if respOk createResp = true then
    let articleId := (respData createResp ⟨""⟩).id
    let knowledgeArticleId :=
      if respOk queryResp = true then
        match (respData queryResp ⟨[]⟩).records with
        | r :: _ => r.KnowledgeArticleId
        | [] => articleId
      else articleId
    if publishArticles then
      let publishResult := publishArticle publishResp
      if publishResult.success = false then
        ⟨true, some knowledgeArticleId, some articleId, some "create",
          some "draft", none,
          some ("Publish failed: " ++ publishResult.error.getD "")⟩
      else
        ⟨true, some knowledgeArticleId, some articleId, some "create",
          some "online", none, none⟩
    else
      ⟨true, some knowledgeArticleId, some articleId, some "create",
        some "draft", none, none⟩
  else
    ⟨false, none, none, some "create", none,
      some (svcErrorOr createResp "Create failed"), none⟩

/-! ## Knowledge sync state machine over a modelled remote

The remote versioned-resource collaborator is out of scope of the source
(§6 of the specification); it is modelled here as a deterministic state
machine satisfying its documented contract: a store of article versions
`(versionId, masterId, publishStatus, externalId, versionNumber)` with
fresh-id allocation.  The engine functions (`…S` suffix) mirror the
control flow of `salesforceKnowledgeHelper.js` under the assumption that
every remote call succeeds; ids are natural numbers. -/

/-- One remote article version (§3 TargetArticleVersion). -/
structure SVersion where
  vid : Nat
  masterId : Nat
  publishStatus : String
  externalId : String
  versionNumber : Nat
deriving DecidableEq

/-- The remote store: version rows plus a fresh-id counter. -/
structure SfState where
  versions : List SVersion
  nextId : Nat
deriving DecidableEq

/-- Well-formedness of a remote store: every stored id was allocated
below the counter, and ids identify rows uniquely. -/
def WF (st : SfState) : Prop :=
  (∀ v ∈ st.versions, v.vid < st.nextId) ∧
  (∀ v ∈ st.versions, ∀ w ∈ st.versions, v.vid = w.vid → v = w)

/-- `ORDER BY VersionNumber DESC LIMIT 1` over the rows matching `p`:
the newest match (ties resolved to the earlier row), `none` when nothing
matches. -/
def newestMatch (p : SVersion → Bool) (l : List SVersion) :
    Option SVersion :=
  match l.filter p with
  | [] => none
  | v :: vs =>
    some (vs.foldl
      (fun b w => if b.versionNumber < w.versionNumber then w else b) v)

/-- `findArticleByExternalId`
(salesforceKnowledgeHelper.js lines 218-320): three queries in priority
order — Draft first, then Online, then any status — each for the literal
external id, newest version first.  (The quote-escaping of the id in the
SOQL text is a serialization concern of the query language; the model
compares the id itself.) -/
def findArticleByExternalId (st : SfState) (externalId : String) :
    Option SVersion :=
  match newestMatch
      (fun v => v.externalId == externalId && v.publishStatus == "Draft")
      st.versions with
  | some a => some a
  | none =>
    match newestMatch
        (fun v => v.externalId == externalId && v.publishStatus == "Online")
        st.versions with
    | some a => some a
    | none =>
      newestMatch (fun v => v.externalId == externalId) st.versions

/-- Remote create (POST `sobjects/<type>`): allocates a fresh version id
and a fresh master id, stores a Draft carrying the posted external id,
and returns only the version id — the master id must be re-queried. -/
def sfCreate (st : SfState) (extId : String) : SfState × Nat :=
  (⟨st.versions ++ [⟨st.nextId, st.nextId + 1, "Draft", extId, 1⟩],
    st.nextId + 2⟩, st.nextId)

/-- Remote create-draft-from-published (POST
`knowledgeManagement/articleVersions/masterVersions`): clones the newest
Online version of the master as a fresh Draft with the next version
number; fails (`none`) when the master has no Online version. -/
def sfEditOnline (st : SfState) (masterId : Nat) : SfState × Option Nat :=
  match newestMatch
      (fun v => v.masterId == masterId && v.publishStatus == "Online")
      st.versions with
  | none => (st, none)
  | some src =>
    (⟨st.versions ++
        [⟨st.nextId, masterId, "Draft", src.externalId,
          src.versionNumber + 1⟩],
      st.nextId + 1⟩, some st.nextId)

/-- Remote PATCH of a version: rewrites the row's payload fields; the
only payload field the store's queries observe is the external id, which
the engine always sets to the source id
(`updateData[EXTERNAL_ID_FIELD] = contentAsset.ID`). -/
def sfPatch (st : SfState) (vid : Nat) (extId : String) : SfState :=
  ⟨st.versions.map
      (fun v => if v.vid = vid then { v with externalId := extId } else v),
    st.nextId⟩

/-- Remote publish action: the version goes Online and any other Online
version of the same master is archived. -/
def sfPublish (st : SfState) (vid : Nat) : SfState :=
  match st.versions.find? (fun v => v.vid == vid) with
  | none => st
  | some tgt =>
    ⟨st.versions.map
        (fun v =>
          if v.vid = vid then { v with publishStatus := "Online" }
          else if v.masterId = tgt.masterId ∧ v.publishStatus = "Online"
          then { v with publishStatus := "Archived" }
          else v),
      st.nextId⟩

/-- The result of one state-model upsert (every remote call succeeds, so
all fields are present). -/
structure SResult where
  success : Bool
  knowledgeArticleId : Nat
  versionId : Nat
  operation : String
  publishStatus : String
deriving DecidableEq

/-- The tail of `updateArticleWithVersioning` after the draft id is
determined: PATCH the draft, then publish only when `publishArticles`
is set. -/
def updateDraftS (st : SfState) (existingArticle : SVersion)
    (draftId : Nat) (extId : String) (publishArticles : Bool) :
    SfState × SResult :=
  let st2 := sfPatch st draftId extId
  if publishArticles then
    (sfPublish st2 draftId,
      ⟨true, existingArticle.masterId, draftId, "update", "online"⟩)
  else
    (st2, ⟨true, existingArticle.masterId, draftId, "update", "draft"⟩)

/-- `updateArticleWithVersioning` over the modelled remote: Online →
draft via `sfEditOnline` first; Draft or any other status → direct update
of the found version. -/
def updateArticleWithVersioningS (st : SfState)
    (existingArticle : SVersion) (extId : String)
    (publishArticles : Bool) : SfState × SResult :=
  if existingArticle.publishStatus = "Online" then
    match sfEditOnline st existingArticle.masterId with
    | (st1, some draftId) =>
      updateDraftS st1 existingArticle draftId extId publishArticles
    | (st1, none) => (st1, ⟨false, 0, 0, "edit_online", ""⟩)
  else
    updateDraftS st existingArticle existingArticle.vid extId
      publishArticles

/-- `createArticle` over the modelled remote: create, re-query the store
for the new row's master id (falling back to the version id if the row
were absent), then publish only when `publishArticles` is set. -/
def createArticleS (st : SfState) (extId : String)
    (publishArticles : Bool) : SfState × SResult :=
  let created := sfCreate st extId
  let st1 := created.1
  let articleId := created.2
  let knowledgeArticleId :=
    match st1.versions.find? (fun v => v.vid == articleId) with
    | some r => r.masterId
    | none => articleId
  if publishArticles then
    (sfPublish st1 articleId,
      ⟨true, knowledgeArticleId, articleId, "create", "online"⟩)
  else
    (st1, ⟨true, knowledgeArticleId, articleId, "create", "draft"⟩)

/-- `upsertKnowledgeArticle` over the modelled remote (the
authentication, field-mapping and metadata steps of the source do not
touch the version store): look up by external id, then update with
versioning or create. -/
def upsertKnowledgeArticleS (st : SfState) (extId : String)
    (publishArticles : Bool) : SfState × SResult :=
  match findArticleByExternalId st extId with
  | some existingArticle =>
    updateArticleWithVersioningS st existingArticle extId publishArticles
  | none => createArticleS st extId publishArticles

/-! ## Batch orchestrator (`contentMappingHelper.js`
`exportToExternalAPI`, `salesforceKnowledgeHelper.js` `exportBatch`) -/

/-- The result shape of `exportBatch`; `details` keeps each record's id
and reported success. -/
structure BatchResult where
  success : Bool
  successCount : Nat
  failureCount : Nat
  error : Option String
  details : List (String × Bool)
deriving DecidableEq

/-- The aggregate result of `exportToExternalAPI`; `errors` keeps the
1-based batch number with the message. -/
structure RunResult where
  totalProcessed : Nat
  totalSuccess : Nat
  totalFailed : Nat
  errors : List (Nat × String)
deriving DecidableEq

/-- `Math.ceil(n / batchSize)` for positive `batchSize`
(contentMappingHelper.js line 522). -/
def totalBatchesOf (n batchSize : Nat) : Nat :=
  (n + batchSize - 1) / batchSize

/-- Batch `i`: `contentAssets.slice(i*batchSize, min((i+1)*batchSize,
n))` (contentMappingHelper.js lines 527-529). -/
def batchOf {α : Type} (l : List α) (batchSize i : Nat) : List α :=
  (l.drop (i * batchSize)).take batchSize

/-- One iteration of the `exportToExternalAPI` loop
(contentMappingHelper.js lines 526-559): a thrown exception
(`Except.error`) counts the whole batch as failed; a returned result
with `success` adds `batchResult.successCount || batch.length` (the JS
`||` falls back to the batch length when the count is zero) to
`totalSuccess`; a returned failure counts the whole batch as failed;
`totalProcessed` grows by the batch length in every case. -/
def exportStep {α : Type}
    (exportFunction : List α → Except String BatchResult)
    (contentAssets : List α) (batchSize : Nat)
    (r : RunResult) (i : Nat) : RunResult :=
  let batch := batchOf contentAssets batchSize i
  match exportFunction batch with
  | .ok batchResult =>
    let r1 := { r with totalProcessed := r.totalProcessed + batch.length }
    if batchResult.success then
      { r1 with totalSuccess := r1.totalSuccess +
          (if batchResult.successCount = 0 then batch.length
           else batchResult.successCount) }
    else
      { r1 with
          totalFailed := r1.totalFailed + batch.length,
          errors := r1.errors ++
            [(i + 1,
              match batchResult.error with
              | some e => if e = "" then "Unknown error" else e
              | none => "Unknown error")] }
  | .error msg =>
    { r with
        totalProcessed := r.totalProcessed + batch.length,
        totalFailed := r.totalFailed + batch.length,
        errors := r.errors ++ [(i + 1, msg)] }

/-- `exportToExternalAPI(contentAssets, batchSize, exportFunction)`
(contentMappingHelper.js lines 506-564). -/
def exportToExternalAPI {α : Type} (contentAssets : List α)
    (batchSize : Nat)
    (exportFunction : List α → Except String BatchResult) : RunResult :=
  if contentAssets.length = 0 then ⟨0, 0, 0, []⟩
  else
    (List.range (totalBatchesOf contentAssets.length batchSize)).foldl
      (exportStep exportFunction contentAssets batchSize) ⟨0, 0, 0, []⟩

/-- A per-record upsert outcome as `exportBatch` reads it. -/
structure SyncOutcome where
  success : Bool
  error : Option String
deriving DecidableEq

/-- `exportBatch(contentAssets, config)`
(salesforceKnowledgeHelper.js lines 775-829): batch-level `success` stays
`true`; each record's upsert outcome is appended to `details` and counted
into `successCount`/`failureCount`; an empty batch only sets an error
message. -/
def exportBatch {α : Type} (contentAssets : List α)
    (assetId : α → String) (upsert : α → SyncOutcome) : BatchResult :=
  let init : BatchResult := ⟨true, 0, 0, none, []⟩
  if contentAssets.length = 0 then { init with error := some "Empty batch" }
  else
    contentAssets.foldl
      (fun r a =>
        let u := upsert a
        let r1 := { r with details := r.details ++ [(assetId a, u.success)] }
        if u.success then { r1 with successCount := r1.successCount + 1 }
        else { r1 with failureCount := r1.failureCount + 1 })
      init

/-- The trailing-trim step of `transformUrlSafe`
(`/^sep+|sep+$/g → ''`) applied after the separator-collapse step. -/
def trimSeps (sep : Char) (l : List Char) : List Char :=
  ((l.dropWhile (fun c => c == sep)).reverse.dropWhile
    (fun c => c == sep)).reverse

/-! ## Lemmas about the object operations -/

theorem objGet_objSet_self (o : List (String × JVal)) (k : String)
    (v : JVal) : objGet (objSet o k v) k = some v := by
  induction o with
  | nil => simp [objSet, objGet]
  | cons e es ih =>
    by_cases h : e.1 = k
    · simp [objSet, h, objGet]
    · simp [objSet, h, objGet, ih]

theorem objGet_objSet_ne (o : List (String × JVal)) (k k' : String)
    (v : JVal) (h : k' ≠ k) :
    objGet (objSet o k v) k' = objGet o k' := by
  induction o with
  | nil => simp [objSet, objGet, Ne.symm h]
  | cons e es ih =>
    by_cases he : e.1 = k
    · subst he
      simp [objSet, objGet, Ne.symm h]
    · by_cases he' : e.1 = k'
      · simp [objSet, objGet, he, he', h]
      · simp [objSet, objGet, he, he', ih]

theorem mem_of_objGet_eq_some {l : List (String × JVal)} {k : String}
    {v : JVal} (h : objGet l k = some v) : (k, v) ∈ l := by
  induction l with
  | nil => simp [objGet] at h
  | cons e es ih =>
    by_cases he : e.1 = k
    · simp only [objGet, he, if_pos] at h
      have : e = (k, v) := by
        cases e with
        | mk a b =>
          simp only at he
          simp only [Option.some.injEq] at h
          simp [he, h]
      rw [← this]
      exact List.mem_cons_self e es
    · simp only [objGet, he, if_neg, if_false] at h
      exact List.mem_cons_of_mem _ (ih h)

theorem objGet_eq_none_of_not_mem {l : List (String × JVal)} {k : String}
    (h : k ∉ l.map Prod.fst) : objGet l k = none := by
  induction l with
  | nil => rfl
  | cons e es ih =>
    simp only [List.map_cons, List.mem_cons] at h
    push_neg at h
    simp [objGet, Ne.symm h.1, ih h.2]

theorem exists_objGet_of_mem_keys {l : List (String × JVal)} {k : String}
    (h : k ∈ l.map Prod.fst) : ∃ v, objGet l k = some v := by
  induction l with
  | nil => simp at h
  | cons e es ih =>
    by_cases he : e.1 = k
    · exact ⟨e.2, by simp [objGet, he]⟩
    · simp only [List.map_cons, List.mem_cons] at h
      rcases h with h | h
      · exact absurd h.symm he
      · simpa [objGet, he] using ih h

theorem foldl_objSet_get_not_mem (f : String × JVal → JVal)
    (l : List (String × JVal)) (acc : List (String × JVal)) (k : String)
    (hk : k ∉ l.map Prod.fst) :
    objGet (l.foldl (fun a e => objSet a e.1 (f e)) acc) k =
      objGet acc k := by
  induction l generalizing acc with
  | nil => rfl
  | cons e es ih =>
    simp only [List.map_cons, List.mem_cons] at hk
    push_neg at hk
    rw [List.foldl_cons, ih _ hk.2]
    exact objGet_objSet_ne _ _ _ _ hk.1

theorem foldl_objSet_get_mem (f : String × JVal → JVal)
    (l : List (String × JVal)) (acc : List (String × JVal)) (k : String)
    (v : JVal) (hnd : (l.map Prod.fst).Nodup) (hmem : (k, v) ∈ l) :
    objGet (l.foldl (fun a e => objSet a e.1 (f e)) acc) k =
      some (f (k, v)) := by
  induction l generalizing acc with
  | nil => cases hmem
  | cons e es ih =>
    simp only [List.map_cons, List.nodup_cons] at hnd
    rcases List.mem_cons.1 hmem with he | he
    · subst he
      rw [List.foldl_cons]
      rw [foldl_objSet_get_not_mem f es _ k hnd.1]
      exact objGet_objSet_self _ _ _
    · rw [List.foldl_cons]
      exact ih _ hnd.2 he

theorem objGet_objCopy_nil {d : List (String × JVal)}
    (hnd : (d.map Prod.fst).Nodup) (k : String) :
    objGet (objCopy d []) k = objGet d k := by
  by_cases h : k ∈ d.map Prod.fst
  · obtain ⟨v, hv⟩ := exists_objGet_of_mem_keys h
    rw [hv]
    exact foldl_objSet_get_mem Prod.snd d [] k v hnd
      (mem_of_objGet_eq_some hv)
  · rw [objGet_eq_none_of_not_mem h]
    exact (foldl_objSet_get_not_mem Prod.snd d [] k h).trans rfl

/-! ## C5: configuration merge semantics -/

theorem mergeStaticFields_get (ds ss : List (String × JVal))
    (hds : (ds.map Prod.fst).Nodup) (hss : (ss.map Prod.fst).Nodup)
    (n : String) :
    objGet (mergeStaticFields ds ss) n =
      (match objGet ss n with
       | some v => some v
       | none => objGet ds n) := by
  unfold mergeStaticFields objCopy
  by_cases h : n ∈ ss.map Prod.fst
  · obtain ⟨v, hv⟩ := exists_objGet_of_mem_keys h
    rw [hv]
    exact foldl_objSet_get_mem Prod.snd ss _ n v hss
      (mem_of_objGet_eq_some hv)
  · rw [objGet_eq_none_of_not_mem h]
    rw [foldl_objSet_get_not_mem Prod.snd ss _ n h]
    exact objGet_objCopy_nil hds n

/-- C5: for every key other than `static` present in the tenant block the
effective configuration takes exactly the tenant's value; the `static`
key is instead shallow-merged with tenant entries winning; a key absent
from the tenant block keeps the default's value; and a tenant id with no
block resolves to the defaults alone
(`mergeConfigurations` / `getSiteConfiguration`, siteConfigHelper.js). -/
theorem c5_merge_tenant_over_defaults :
    (∀ (defaults siteConfig : List (String × JVal)) (k : String) (v : JVal),
        (siteConfig.map Prod.fst).Nodup → k ≠ "static" →
        objGet siteConfig k = some v →
        objGet (mergeConfigurations defaults siteConfig) k = some v) ∧
    (∀ (defaults siteConfig : List (String × JVal)),
        (siteConfig.map Prod.fst).Nodup →
        "static" ∈ siteConfig.map Prod.fst →
        objGet (mergeConfigurations defaults siteConfig) "static" =
          some (.obj (mergeStaticFields (staticBlock defaults)
            (staticBlock siteConfig)))) ∧
    (∀ (ds ss : List (String × JVal)),
        (ds.map Prod.fst).Nodup → (ss.map Prod.fst).Nodup →
        ∀ n : String,
          objGet (mergeStaticFields ds ss) n =
            (match objGet ss n with
             | some v => some v
             | none => objGet ds n)) ∧
    (∀ (defaults siteConfig : List (String × JVal)) (k : String),
        (defaults.map Prod.fst).Nodup → k ∉ siteConfig.map Prod.fst →
        objGet (mergeConfigurations defaults siteConfig) k =
          objGet defaults k) ∧
    (∀ (allConfigs : List (String × JVal)) (siteID : String),
        jsTrim siteID ≠ "" → objGet allConfigs siteID = none →
        getSiteConfiguration allConfigs siteID =
          some (defaultsBlock allConfigs)) := by
  have hstep : ∀ (defaults siteConfig : List (String × JVal)),
      mergeConfigurations defaults siteConfig =
        siteConfig.foldl
          (fun a e => objSet a e.1
            (if e.1 = "static" then
              (.obj (mergeStaticFields (staticBlock defaults)
                (staticBlock siteConfig)))
             else e.2))
          (objCopy defaults []) := by
    intro defaults siteConfig
    show siteConfig.foldl
        (fun acc e =>
          if e.1 = "static" then
            objSet acc "static"
              (.obj (mergeStaticFields (staticBlock defaults)
                (staticBlock siteConfig)))
          else objSet acc e.1 e.2)
        (objCopy defaults []) = _
    apply List.foldl_ext
    intro acc e he
    by_cases h : e.1 = "static"
    · rw [if_pos h, if_pos h, h]
    · rw [if_neg h, if_neg h]
  refine ⟨?_, ?_, ?_, ?_, ?_⟩
  · intro defaults siteConfig k v hnd hk hv
    rw [hstep]
    have := foldl_objSet_get_mem
      (fun e => if e.1 = "static" then
        (.obj (mergeStaticFields (staticBlock defaults)
          (staticBlock siteConfig)))
       else e.2)
      siteConfig (objCopy defaults []) k v hnd (mem_of_objGet_eq_some hv)
    simpa [hk] using this
  · intro defaults siteConfig hnd hmem
    obtain ⟨v, hv⟩ := exists_objGet_of_mem_keys hmem
    rw [hstep]
    have := foldl_objSet_get_mem
      (fun e => if e.1 = "static" then
        (.obj (mergeStaticFields (staticBlock defaults)
          (staticBlock siteConfig)))
       else e.2)
      siteConfig (objCopy defaults []) "static" v hnd
      (mem_of_objGet_eq_some hv)
    simpa using this
  · intro ds ss hds hss n
    exact mergeStaticFields_get ds ss hds hss n
  · intro defaults siteConfig k hnd hk
    rw [hstep]
    rw [foldl_objSet_get_not_mem _ siteConfig _ k hk]
    exact objGet_objCopy_nil hnd k
  · intro allConfigs siteID hsid hnone
    unfold getSiteConfiguration
    simp [hsid, hnone]

/-- Witness for C5 at a concrete configuration: tenant `SiteA` overrides
`batchSize` wholesale, static blocks are shallow-merged with the tenant
winning on `Channel`, and an unknown tenant resolves to the defaults. -/
theorem c5_merge_tenant_over_defaults_witness :
    objGet (mergeConfigurations
      [("batchSize", .num 100),
       ("static", .obj [("Channel", .str "web"), ("Lang", .str "en")])]
      [("batchSize", .num 25),
       ("static", .obj [("Channel", .str "app")])]) "batchSize" =
      some (.num 25) ∧
    objGet (mergeConfigurations
      [("batchSize", .num 100),
       ("static", .obj [("Channel", .str "web"), ("Lang", .str "en")])]
      [("batchSize", .num 25),
       ("static", .obj [("Channel", .str "app")])]) "static" =
      some (.obj [("Channel", .str "app"), ("Lang", .str "en")]) ∧
    getSiteConfiguration [("_defaults", .obj [("batchSize", .num 100)])]
      "SiteB" = some [("batchSize", .num 100)] := by
  refine ⟨?_, ?_, ?_⟩
  · exact c5_merge_tenant_over_defaults.1
      [("batchSize", .num 100),
       ("static", .obj [("Channel", .str "web"), ("Lang", .str "en")])]
      [("batchSize", .num 25), ("static", .obj [("Channel", .str "app")])]
      "batchSize" (.num 25)
      (by simp) (by simp) (by rfl)
  · have h := c5_merge_tenant_over_defaults.2.1
      [("batchSize", .num 100),
       ("static", .obj [("Channel", .str "web"), ("Lang", .str "en")])]
      [("batchSize", .num 25), ("static", .obj [("Channel", .str "app")])]
      (by simp) (by simp)
    rw [h]
    rfl
  · exact c5_merge_tenant_over_defaults.2.2.2.2
      [("_defaults", .obj [("batchSize", .num 100)])] "SiteB"
      (by decide) (by rfl)

/-! ## C6: delta filter -/

/-- C6: in delta mode an online record with no `lastSyncTime` is
included; with both timestamps it is included iff `lastModified` is
strictly greater than `lastSyncTime` (equal timestamps are excluded);
in full mode every online record is included and `getContentAssets`
returns exactly the online records (`getContentAssets`,
contentMappingHelper.js lines 80-114). -/
theorem c6_delta_filter_strict :
    (∀ lm : Int, includeAsset "delta" ⟨true, some lm, none⟩ = true) ∧
    (∀ lm ls : Int,
      includeAsset "delta" ⟨true, some lm, some ls⟩ = decide (ls < lm)) ∧
    (∀ lm : Int, includeAsset "delta" ⟨true, some lm, some lm⟩ = false) ∧
    (∀ a : CAsset, includeAsset "full" a = a.online) ∧
    (∀ assets : List CAsset,
      getContentAssets assets "full" = assets.filter (fun a => a.online)) := by
  have hfull : ∀ a : CAsset, includeAsset "full" a = a.online := by
    intro a
    cases a with
    | mk o lm ls => cases o <;> rfl
  refine ⟨fun lm => rfl, fun lm ls => rfl, fun lm => by simp [includeAsset],
    hfull, ?_⟩
  intro assets
  unfold getContentAssets
  exact List.filter_congr (fun a _ => hfull a)

/-! ## C10: transform application frame -/

theorem objSet_of_not_mem {o : List (String × JVal)} {k : String}
    (v : JVal) (h : k ∉ o.map Prod.fst) : objSet o k v = o ++ [(k, v)] := by
  induction o with
  | nil => rfl
  | cons e es ih =>
    simp only [List.map_cons, List.mem_cons] at h
    push_neg at h
    simp [objSet, Ne.symm h.1, ih h.2]

theorem objCopy_append_of_disjoint :
    ∀ (l acc : List (String × JVal)), (l.map Prod.fst).Nodup →
    (∀ e ∈ l, e.1 ∉ acc.map Prod.fst) → objCopy l acc = acc ++ l := by
  intro l
  induction l with
  | nil => intro acc _ _; simp [objCopy]
  | cons e es ih =>
    intro acc hnd hdisj
    simp only [List.map_cons, List.nodup_cons] at hnd
    have h1 : objSet acc e.1 e.2 = acc ++ [(e.1, e.2)] :=
      objSet_of_not_mem e.2 (hdisj e (List.mem_cons_self e es))
    have h2 : objCopy es (acc ++ [(e.1, e.2)]) = (acc ++ [(e.1, e.2)]) ++ es := by
      apply ih _ hnd.2
      intro x hx
      simp only [List.map_append, List.mem_append, List.map_cons]
      push_neg
      constructor
      · exact hdisj x (List.mem_cons_of_mem _ hx)
      · intro hc
        simp only [List.map_nil, List.mem_singleton] at hc
        exact hnd.1 (hc ▸ List.mem_map.2 ⟨x, hx, rfl⟩)
    calc objCopy (e :: es) acc = objCopy es (objSet acc e.1 e.2) := rfl
      _ = objCopy es (acc ++ [(e.1, e.2)]) := by rw [h1]
      _ = (acc ++ [(e.1, e.2)]) ++ es := h2
      _ = acc ++ (e :: es) := by simp

theorem objCopy_nil_eq {l : List (String × JVal)}
    (hnd : (l.map Prod.fst).Nodup) : objCopy l [] = l := by
  have := objCopy_append_of_disjoint l [] hnd (by simp)
  simpa using this

theorem objSet_map_fst_of_get_some {o : List (String × JVal)} {k : String}
    {w : JVal} (v : JVal) (h : objGet o k = some w) :
    (objSet o k v).map Prod.fst = o.map Prod.fst := by
  induction o with
  | nil => simp [objGet] at h
  | cons e es ih =>
    by_cases he : e.1 = k
    · simp [objSet, he]
    · simp only [objGet, he, if_neg, if_false] at h
      simp [objSet, he, ih h]

theorem transformsFold_map_fst (ts : List (String × JVal)) :
    ∀ acc : List (String × JVal),
    ((ts.foldl
      (fun acc e =>
        match objGet acc e.1 with
        | some originalValue =>
          match e.2 with
          | .arr l => objSet acc e.1 (applyMultipleTransforms originalValue l e.1)
          | t => objSet acc e.1 (applyTransform originalValue t e.1)
        | none => acc)
      acc).map Prod.fst) = acc.map Prod.fst := by
  induction ts with
  | nil => intro acc; rfl
  | cons e es ih =>
    intro acc
    rw [List.foldl_cons, ih]
    cases hg : objGet acc e.1 with
    | none => simp
    | some w =>
      cases e.2 with
      | arr l => simp only; exact objSet_map_fst_of_get_some _ hg
      | null => simp only; exact objSet_map_fst_of_get_some _ hg
      | bool b => simp only; exact objSet_map_fst_of_get_some _ hg
      | num q => simp only; exact objSet_map_fst_of_get_some _ hg
      | str s => simp only; exact objSet_map_fst_of_get_some _ hg
      | obj o => simp only; exact objSet_map_fst_of_get_some _ hg

theorem transformsFold_get_not_mem (ts : List (String × JVal))
    (f : String) (hf : f ∉ ts.map Prod.fst) :
    ∀ acc : List (String × JVal),
    objGet (ts.foldl
      (fun acc e =>
        match objGet acc e.1 with
        | some originalValue =>
          match e.2 with
          | .arr l => objSet acc e.1 (applyMultipleTransforms originalValue l e.1)
          | t => objSet acc e.1 (applyTransform originalValue t e.1)
        | none => acc)
      acc) f = objGet acc f := by
  induction ts with
  | nil => intro acc; rfl
  | cons e es ih =>
    simp only [List.map_cons, List.mem_cons] at hf
    push_neg at hf
    intro acc
    rw [List.foldl_cons, ih hf.2]
    cases hg : objGet acc e.1 with
    | none => rfl
    | some w =>
      cases e.2 with
      | arr l => exact objGet_objSet_ne _ _ _ _ hf.1
      | null => exact objGet_objSet_ne _ _ _ _ hf.1
      | bool b => exact objGet_objSet_ne _ _ _ _ hf.1
      | num q => exact objGet_objSet_ne _ _ _ _ hf.1
      | str s => exact objGet_objSet_ne _ _ _ _ hf.1
      | obj o => exact objGet_objSet_ne _ _ _ _ hf.1

/-- C10: `applyTransformsToFields` returns an object with exactly the
field names of `mappedFields`; a field with no transform entry keeps its
original value; a transform entry for an absent field adds nothing
(`applyTransformsToFields`, fieldTransformHelper.js lines 339-373). -/
theorem c10_apply_transforms_frame (mappedFields transforms :
    List (String × JVal))
    (hnd : (mappedFields.map Prod.fst).Nodup) :
    ((applyTransformsToFields mappedFields transforms).map Prod.fst =
      mappedFields.map Prod.fst) ∧
    (∀ f : String, f ∉ transforms.map Prod.fst →
      objGet (applyTransformsToFields mappedFields transforms) f =
        objGet mappedFields f) ∧
    (∀ f : String, f ∉ mappedFields.map Prod.fst →
      objGet (applyTransformsToFields mappedFields transforms) f = none) := by
  have hcopy : objCopy mappedFields [] = mappedFields := objCopy_nil_eq hnd
  have hkeys : (applyTransformsToFields mappedFields transforms).map
      Prod.fst = mappedFields.map Prod.fst := by
    unfold applyTransformsToFields
    rw [hcopy]
    exact transformsFold_map_fst transforms mappedFields
  refine ⟨hkeys, ?_, ?_⟩
  · intro f hf
    unfold applyTransformsToFields
    rw [hcopy]
    exact transformsFold_get_not_mem transforms f hf mappedFields
  · intro f hf
    apply objGet_eq_none_of_not_mem
    rw [hkeys]
    exact hf

/-- Witness for C10 at a concrete input: the transformed object keeps
exactly the mapped field names, the untransformed `Slug` keeps its value,
and the transform entry for the absent field `Missing` adds nothing. -/
theorem c10_apply_transforms_frame_witness :
    ((applyTransformsToFields
        [("UrlName", .str "How to Reset Password"),
         ("Slug", .str "Product FAQ")]
        [("UrlName", .str "urlSafe:-"), ("Missing", .str "lowercase")]).map
      Prod.fst = ["UrlName", "Slug"]) ∧
    objGet (applyTransformsToFields
        [("UrlName", .str "How to Reset Password"),
         ("Slug", .str "Product FAQ")]
        [("UrlName", .str "urlSafe:-"), ("Missing", .str "lowercase")])
      "Slug" = some (.str "Product FAQ") ∧
    objGet (applyTransformsToFields
        [("UrlName", .str "How to Reset Password"),
         ("Slug", .str "Product FAQ")]
        [("UrlName", .str "urlSafe:-"), ("Missing", .str "lowercase")])
      "Missing" = none := by
  have h := c10_apply_transforms_frame
    [("UrlName", .str "How to Reset Password"),
     ("Slug", .str "Product FAQ")]
    [("UrlName", .str "urlSafe:-"), ("Missing", .str "lowercase")]
    (by decide)
  refine ⟨h.1.trans (by rfl), ?_, ?_⟩
  · exact (h.2.1 "Slug" (by decide)).trans (by rfl)
  · exact h.2.2 "Missing" (by decide)

/-! ## C7: payload field inclusion -/

theorem mapFold_get_not_mem (asset : JVal) (fm : List (String × String))
    (f : String) (hf : f ∉ fm.map Prod.fst) :
    ∀ acc : List (String × JVal),
    objGet (fm.foldl
      (fun article e =>
        let rawValue := getNestedProperty asset e.2
        let value := convertToSalesforceSafeValue rawValue
        if includedValue value then objSet article e.1 value else article)
      acc) f = objGet acc f := by
  induction fm with
  | nil => intro acc; rfl
  | cons e es ih =>
    simp only [List.map_cons, List.mem_cons] at hf
    push_neg at hf
    intro acc
    rw [List.foldl_cons, ih hf.2]
    by_cases hv : includedValue
        (convertToSalesforceSafeValue (getNestedProperty asset e.2)) = true
    · simp only [hv, if_true]
      exact objGet_objSet_ne _ _ _ _ hf.1
    · simp [hv]

theorem mapFold_get_mem (asset : JVal) (fm : List (String × String))
    (f p : String) (hnd : (fm.map Prod.fst).Nodup) (hmem : (f, p) ∈ fm) :
    ∀ acc : List (String × JVal),
    objGet (fm.foldl
      (fun article e =>
        let rawValue := getNestedProperty asset e.2
        let value := convertToSalesforceSafeValue rawValue
        if includedValue value then objSet article e.1 value else article)
      acc) f =
      (if includedValue (convertToSalesforceSafeValue
          (getNestedProperty asset p)) then
        some (convertToSalesforceSafeValue (getNestedProperty asset p))
      else objGet acc f) := by
  induction fm with
  | nil => cases hmem
  | cons e es ih =>
    simp only [List.map_cons, List.nodup_cons] at hnd
    intro acc
    rcases List.mem_cons.1 hmem with he | he
    · have hf : f ∉ es.map Prod.fst := by
        intro hc
        exact hnd.1 (by rw [← he]; exact hc)
      rw [List.foldl_cons, mapFold_get_not_mem asset es f hf]
      rw [← he]
      by_cases hv : includedValue
          (convertToSalesforceSafeValue (getNestedProperty asset p)) = true
      · simp only [hv, if_true]
        exact objGet_objSet_self _ _ _
      · simp [hv]
    · have hef : e.1 ≠ f := by
        intro hc
        exact hnd.1 (hc ▸ List.mem_map.2 ⟨(f, p), he, rfl⟩)
      rw [List.foldl_cons]
      rw [ih hnd.2 he]
      by_cases hv : includedValue
          (convertToSalesforceSafeValue (getNestedProperty asset p)) = true
      · simp only [hv, if_true]
      · simp only [hv, Bool.false_eq_true, if_false]
        by_cases hv2 : includedValue
            (convertToSalesforceSafeValue (getNestedProperty asset e.2)) = true
        · simp only [hv2, if_true]
          exact objGet_objSet_ne _ _ _ _ (Ne.symm hef)
        · simp [hv2]

/-- C7: a mapped target field appears in the produced payload exactly
when its resolved Salesforce-safe value is neither null nor the empty
string (and then with exactly that value); the `Language` system field is
present exactly in create payloads (`mapContentToArticle` /
`convertToSalesforceSafeValue`, contentMappingHelper.js).  The reserved
payload keys (`attributes`, `Language`, `DataCategorySelections`), which
the mapper manages itself, are excluded from the mapped-field
statement. -/
theorem c7_payload_field_inclusion :
    (∀ (asset : JVal) (articleType : String) (fm : List (String × String))
        (dataCategory : Option String) (isCreate : Bool) (f p : String),
      (fm.map Prod.fst).Nodup → (f, p) ∈ fm →
      f ≠ "attributes" → f ≠ "Language" → f ≠ "DataCategorySelections" →
      objGet (mapContentToArticle asset articleType fm dataCategory
        isCreate) f =
        (if includedValue (convertToSalesforceSafeValue
            (getNestedProperty asset p)) then
          some (convertToSalesforceSafeValue (getNestedProperty asset p))
        else none)) ∧
    (∀ (asset : JVal) (articleType : String) (fm : List (String × String))
        (dataCategory : Option String) (isCreate : Bool),
      "Language" ∉ fm.map Prod.fst →
      objGet (mapContentToArticle asset articleType fm dataCategory
        isCreate) "Language" =
        (if isCreate then some (.str "en_US") else none)) := by
  constructor
  · intro asset articleType fm dataCategory isCreate f p hnd hmem hf1 hf2 hf3
    unfold mapContentToArticle
    have h0 : objGet [("attributes",
        JVal.obj [("type", JVal.str articleType)])] f = none := by
      simp [objGet, Ne.symm hf1]
    have h1 := mapFold_get_mem asset fm f p hnd hmem
      [("attributes", JVal.obj [("type", JVal.str articleType)])]
    have h2 : ∀ (o : List (String × JVal)),
        objGet (if isCreate then objSet o "Language" (.str "en_US") else o)
          f = objGet o f := by
      intro o
      by_cases hc : isCreate
      · rw [if_pos hc]
        exact objGet_objSet_ne _ _ _ _ hf2
      · rw [if_neg hc]
    have h3 : ∀ (o : List (String × JVal)),
        objGet (match dataCategory with
          | some dc =>
            if jsTrim dc ≠ "" then
              objSet o "DataCategorySelections"
                (.obj [("DataCategory", .str dc)])
            else o
          | none => o) f = objGet o f := by
      intro o
      cases dataCategory with
      | none => rfl
      | some dc =>
        show objGet (if jsTrim dc ≠ "" then
            objSet o "DataCategorySelections"
              (.obj [("DataCategory", .str dc)])
          else o) f = objGet o f
        by_cases hc : jsTrim dc ≠ ""
        · rw [if_pos hc]
          exact objGet_objSet_ne _ _ _ _ hf3
        · rw [if_neg hc]
    simp only
    rw [h3, h2, h1, h0]
  · intro asset articleType fm dataCategory isCreate hlang
    unfold mapContentToArticle
    have h1 := mapFold_get_not_mem asset fm "Language" hlang
      [("attributes", JVal.obj [("type", JVal.str articleType)])]
    have h0 : objGet [("attributes",
        JVal.obj [("type", JVal.str articleType)])] "Language" = none := by
      simp [objGet]
    have h3 : ∀ (o : List (String × JVal)),
        objGet (match dataCategory with
          | some dc =>
            if jsTrim dc ≠ "" then
              objSet o "DataCategorySelections"
                (.obj [("DataCategory", .str dc)])
            else o
          | none => o) "Language" = objGet o "Language" := by
      intro o
      cases dataCategory with
      | none => rfl
      | some dc =>
        show objGet (if jsTrim dc ≠ "" then
            objSet o "DataCategorySelections"
              (.obj [("DataCategory", .str dc)])
          else o) "Language" = objGet o "Language"
        by_cases hc : jsTrim dc ≠ ""
        · rw [if_pos hc]
          exact objGet_objSet_ne _ _ _ _
            (show "Language" ≠ "DataCategorySelections" by decide)
        · rw [if_neg hc]
    simp only
    rw [h3]
    by_cases hc : isCreate = true
    · rw [if_pos hc, if_pos hc]
      exact objGet_objSet_self _ _ _
    · rw [if_neg hc, if_neg hc, h1, h0]

/-- Witness for C7 at the specification's running example: `Title` maps
`name` and is present with the raw value, a field mapped to a missing
path is absent, and `Language` is present exactly on the create path. -/
theorem c7_payload_field_inclusion_witness :
    objGet (mapContentToArticle
      (.obj [("ID", .str "faq-001"),
             ("name", .str "How to Reset Password?")])
      "Knowledge__kav" [("Title", "name"), ("Summary", "pageDescription")]
      none true) "Title" = some (.str "How to Reset Password?") ∧
    objGet (mapContentToArticle
      (.obj [("ID", .str "faq-001"),
             ("name", .str "How to Reset Password?")])
      "Knowledge__kav" [("Title", "name"), ("Summary", "pageDescription")]
      none true) "Summary" = none ∧
    objGet (mapContentToArticle
      (.obj [("ID", .str "faq-001"),
             ("name", .str "How to Reset Password?")])
      "Knowledge__kav" [("Title", "name"), ("Summary", "pageDescription")]
      none true) "Language" = some (.str "en_US") ∧
    objGet (mapContentToArticle
      (.obj [("ID", .str "faq-001"),
             ("name", .str "How to Reset Password?")])
      "Knowledge__kav" [("Title", "name"), ("Summary", "pageDescription")]
      none false) "Language" = none := by
  refine ⟨?_, ?_, ?_, ?_⟩
  · have h := c7_payload_field_inclusion.1
      (.obj [("ID", .str "faq-001"),
             ("name", .str "How to Reset Password?")])
      "Knowledge__kav" [("Title", "name"), ("Summary", "pageDescription")]
      none true "Title" "name" (by decide) (by decide) (by decide)
      (by decide) (by decide)
    rw [h]
    rfl
  · have h := c7_payload_field_inclusion.1
      (.obj [("ID", .str "faq-001"),
             ("name", .str "How to Reset Password?")])
      "Knowledge__kav" [("Title", "name"), ("Summary", "pageDescription")]
      none true "Summary" "pageDescription" (by decide) (by decide)
      (by decide) (by decide) (by decide)
    rw [h]
    rfl
  · have h := c7_payload_field_inclusion.2
      (.obj [("ID", .str "faq-001"),
             ("name", .str "How to Reset Password?")])
      "Knowledge__kav" [("Title", "name"), ("Summary", "pageDescription")]
      none true (by decide)
    rw [h]
    rfl
  · have h := c7_payload_field_inclusion.2
      (.obj [("ID", .str "faq-001"),
             ("name", .str "How to Reset Password?")])
      "Knowledge__kav" [("Title", "name"), ("Summary", "pageDescription")]
      none false (by decide)
    rw [h]
    rfl

/-! ## C9: batchSize validation -/

theorem ne_batchSizeErrorMsg_of_head {m : String} {c : Char}
    (hm : m.data.head? = some c) (hc : c ≠ 'b') :
    m ≠ batchSizeErrorMsg := by
  intro h
  rw [h] at hm
  have hb : batchSizeErrorMsg.data.head? = some 'b' := rfl
  rw [hb] at hm
  exact hc (Option.some.inj hm).symm

theorem notMem_of_eq_nil_or_singleton {m x : String} {l : List String}
    (h : l = [] ∨ l = [x]) (hne : x ≠ m) : m ∉ l := by
  rcases h with h | h <;> subst h
  · simp
  · simp only [List.mem_singleton]
    exact fun hh => hne hh.symm

theorem checkStringPref_sub (ces : List (String × JVal)) (key : String) :
    checkStringPref ces key = [] ∨
      checkStringPref ces key = [key ++ " must be a string"] := by
  unfold checkStringPref
  split
  · split
    · right; rfl
    · left; rfl
  · left; rfl

theorem checkBooleanPref_sub (ces : List (String × JVal)) (key : String) :
    checkBooleanPref ces key = [] ∨
      checkBooleanPref ces key = [key ++ " must be a boolean"] := by
  unfold checkBooleanPref
  split
  · left; rfl
  · right; rfl
  · left; rfl

theorem checkObjectPref_sub (ces : List (String × JVal)) (key : String) :
    checkObjectPref ces key = [] ∨
      checkObjectPref ces key = [key ++ " must be an object"] := by
  unfold checkObjectPref
  split
  · split
    · right; rfl
    · left; rfl
  · left; rfl

theorem checkExportMode_sub (ces : List (String × JVal)) :
    checkExportMode ces = [] ∨
      checkExportMode ces = ["exportMode must be \x22delta\x22 or \x22full\x22"] := by
  unfold checkExportMode
  split
  · left; rfl
  · left; rfl
  · right; rfl
  · left; rfl

theorem checkContentFolderIDs_sub (ces : List (String × JVal)) :
    checkContentFolderIDs ces = [] ∨
      ∃ e, checkContentFolderIDs ces = ["contentFolderIDs: " ++ e] := by
  unfold checkContentFolderIDs
  split
  · split
    · left; rfl
    · right; exact ⟨_, rfl⟩
  · left
    rfl

theorem checkFieldMapping_fst_sub (ces : List (String × JVal)) :
    (checkFieldMapping ces).1 = [] ∨
      (checkFieldMapping ces).1 = ["fieldMapping must be an object"] := by
  unfold checkFieldMapping
  split
  · left; rfl
  · left; rfl
  · right; rfl
  · left; rfl

theorem validateTransformEntry_errors_shape (acc : ValidationResult)
    (fn : String) (t : JVal) :
    (validateTransformEntry acc fn t).errors = acc.errors ∨
    ∃ s : String, (validateTransformEntry acc fn t).errors =
      acc.errors ++ ["Transform " ++ s] := by
  rcases t with _ | b | q | s | tes | l <;>
    simp only [validateTransformEntry]
  · exact Or.inr
      ⟨"for field " ++ fn ++ " must be a string or object", rfl⟩
  · exact Or.inr
      ⟨"for field " ++ fn ++ " must be a string or object", rfl⟩
  · exact Or.inr
      ⟨"for field " ++ fn ++ " must be a string or object", rfl⟩
  · refine Or.inl ?_
    split <;> rfl
  · split
    · exact Or.inr
        ⟨"object for field " ++ fn ++ " must have a \x22type\x22 property",
          rfl⟩
    · refine Or.inl ?_
      split <;> rfl
    · exact Or.inr ⟨"type for field " ++ fn ++ " must be a string", rfl⟩
  · exact Or.inr
      ⟨"object for field " ++ fn ++ " must have a \x22type\x22 property",
        rfl⟩

theorem validateTransformEntry_errors_mem {acc : ValidationResult}
    {fn : String} {t : JVal} {m : String}
    (hm : m ∈ (validateTransformEntry acc fn t).errors) :
    m ∈ acc.errors ∨ m.data.head? = some 'T' := by
  rcases validateTransformEntry_errors_shape acc fn t with h | ⟨s, h⟩
  · rw [h] at hm
    exact Or.inl hm
  · rw [h] at hm
    rcases List.mem_append.1 hm with h' | h'
    · exact Or.inl h'
    · right
      simp only [List.mem_singleton] at h'
      rw [h']
      rfl

theorem validateTransformsEntries_errors_head
    (entries : List (String × JVal)) :
    ∀ acc : ValidationResult,
    (∀ m ∈ acc.errors, m.data.head? = some 'T') →
    ∀ m ∈ (entries.foldl
      (fun acc e => validateTransformEntry acc e.1 e.2) acc).errors,
      m.data.head? = some 'T' := by
  induction entries with
  | nil => intro acc hacc m hm; exact hacc m hm
  | cons e es ih =>
    intro acc hacc m hm
    rw [List.foldl_cons] at hm
    refine ih (validateTransformEntry acc e.1 e.2) ?_ m hm
    intro m' hm'
    rcases validateTransformEntry_errors_mem hm' with h | h
    · exact hacc m' h
    · exact h

theorem batch_notMem_validateTransforms (v : JVal) :
    batchSizeErrorMsg ∉ (validateTransforms v).errors := by
  have hT : ∀ m : String, m.data.head? = some 'T' →
      m ≠ batchSizeErrorMsg := by
    intro m hm
    exact ne_batchSizeErrorMsg_of_head hm (by decide)
  rcases v with _ | b | q | s | es | l
  · simp only [validateTransforms, List.mem_singleton]
    decide
  · simp only [validateTransforms, List.mem_singleton]
    decide
  · simp only [validateTransforms, List.mem_singleton]
    decide
  · simp only [validateTransforms, List.mem_singleton]
    decide
  · intro hm
    simp only [validateTransforms, validateTransformsEntries] at hm
    exact hT batchSizeErrorMsg
      (validateTransformsEntries_errors_head es ⟨true, [], []⟩
        (by intro m hm'; cases hm') batchSizeErrorMsg hm) rfl
  · intro hm
    simp only [validateTransforms, validateTransformsEntries] at hm
    exact hT batchSizeErrorMsg
      (validateTransformsEntries_errors_head
        (l.enum.map (fun p => (toString p.1, p.2))) ⟨true, [], []⟩
        (by intro m hm'; cases hm') batchSizeErrorMsg hm) rfl

theorem batch_notMem_checkTransforms (ces : List (String × JVal)) :
    batchSizeErrorMsg ∉ (checkTransforms ces).1 := by
  unfold checkTransforms
  split
  · exact batch_notMem_validateTransforms _
  · simp

theorem batch_notMem_checkContentFolderIDs (ces : List (String × JVal)) :
    batchSizeErrorMsg ∉ checkContentFolderIDs ces := by
  rcases checkContentFolderIDs_sub ces with h | ⟨e, h⟩ <;> rw [h]
  · simp
  · simp only [List.mem_singleton]
    intro hh
    exact ne_batchSizeErrorMsg_of_head
      (show ("contentFolderIDs: " ++ e).data.head? = some 'c' from rfl)
      (by decide) hh.symm

theorem checkBatchSize_mem_iff (ces : List (String × JVal)) (bs : JVal)
    (h : objGet ces "batchSize" = some bs) :
    (batchSizeErrorMsg ∈ checkBatchSize ces ↔ batchSizeBad bs = true) := by
  unfold checkBatchSize
  rw [h]
  rcases bs with _ | b | q | s | es | l
  · simp [batchSizeBad]
  · simp [batchSizeBad]
  · by_cases hq : q < 1 ∨ 500 < q
    · simp [batchSizeBad, hq]
    · simp [batchSizeBad, hq]
  · simp [batchSizeBad]
  · simp [batchSizeBad]
  · simp [batchSizeBad]

set_option maxHeartbeats 1600000 in
/-- C9 counterexample to the claim as stated: `batchSize = 2.5` is a
number inside `[1, 500]` but not an integer, yet `validateConfiguration`
reports no error and `valid = true` — the source checks
`typeof !== 'number' || < 1 || > 500` and never integrality
(siteConfigHelper.js lines 203-208). -/
theorem c9_batchsize_noninteger_accepted :
    (1 ≤ mkRat 5 2 ∧ mkRat 5 2 ≤ 500 ∧ (mkRat 5 2).den ≠ 1) ∧
    (validateConfiguration (.obj [("batchSize", .num (mkRat 5 2))])
      "SiteGenesis").valid = true ∧
    (validateConfiguration (.obj [("batchSize", .num (mkRat 5 2))])
      "SiteGenesis").errors = [] := by
  exact ⟨by decide, by decide, by decide⟩

set_option maxHeartbeats 1600000 in
/-- C9 amended: for a configuration object with `batchSize` present,
`validateConfiguration` reports the batchSize error exactly when the
value is not a number or is a number outside `[1, 500]` — integrality is
not checked — and whenever that error is reported the result has
`valid = false` (`validateConfiguration`, siteConfigHelper.js
lines 203-208). -/
theorem c9_batchsize_number_range (ces : List (String × JVal))
    (siteID : String) (bs : JVal)
    (h : objGet ces "batchSize" = some bs) :
    (batchSizeErrorMsg ∈
        (validateConfiguration (.obj ces) siteID).errors ↔
      batchSizeBad bs = true) ∧
    (batchSizeBad bs = true →
      (validateConfiguration (.obj ces) siteID).valid = false) := by
  have n1 : batchSizeErrorMsg ∉ checkStringPref ces "articleType" :=
    notMem_of_eq_nil_or_singleton (checkStringPref_sub ces "articleType")
      (by decide)
  have n2 : batchSizeErrorMsg ∉ checkContentFolderIDs ces :=
    batch_notMem_checkContentFolderIDs ces
  have n3 : batchSizeErrorMsg ∉ checkExportMode ces :=
    notMem_of_eq_nil_or_singleton (checkExportMode_sub ces) (by decide)
  have n4 : batchSizeErrorMsg ∉ checkBooleanPref ces "publishArticles" :=
    notMem_of_eq_nil_or_singleton
      (checkBooleanPref_sub ces "publishArticles") (by decide)
  have n5 : batchSizeErrorMsg ∉ checkBooleanPref ces "enableDebugLogging" :=
    notMem_of_eq_nil_or_singleton
      (checkBooleanPref_sub ces "enableDebugLogging") (by decide)
  have n6 : batchSizeErrorMsg ∉ checkBooleanPref ces "autoCreateFields" :=
    notMem_of_eq_nil_or_singleton
      (checkBooleanPref_sub ces "autoCreateFields") (by decide)
  have n7 : batchSizeErrorMsg ∉ (checkFieldMapping ces).1 :=
    notMem_of_eq_nil_or_singleton (checkFieldMapping_fst_sub ces)
      (by decide)
  have n8 : batchSizeErrorMsg ∉ (checkTransforms ces).1 :=
    batch_notMem_checkTransforms ces
  have n9 : batchSizeErrorMsg ∉ checkObjectPref ces "static" :=
    notMem_of_eq_nil_or_singleton (checkObjectPref_sub ces "static")
      (by decide)
  have n10 : batchSizeErrorMsg ∉ checkObjectPref ces "fieldMetadata" :=
    notMem_of_eq_nil_or_singleton (checkObjectPref_sub ces "fieldMetadata")
      (by decide)
  have n11 : batchSizeErrorMsg ∉ checkStringPref ces "recordTypeName" :=
    notMem_of_eq_nil_or_singleton
      (checkStringPref_sub ces "recordTypeName") (by decide)
  have n12 : batchSizeErrorMsg ∉ checkStringPref ces "dataCategory" :=
    notMem_of_eq_nil_or_singleton (checkStringPref_sub ces "dataCategory")
      (by decide)
  have hbs := checkBatchSize_mem_iff ces bs h
  have hmem : batchSizeErrorMsg ∈
      (validateConfiguration (.obj ces) siteID).errors ↔
      batchSizeErrorMsg ∈ checkBatchSize ces := by
    show batchSizeErrorMsg ∈
      (checkStringPref ces "articleType" ++
        checkContentFolderIDs ces ++
        checkBatchSize ces ++
        checkExportMode ces ++
        checkBooleanPref ces "publishArticles" ++
        checkBooleanPref ces "enableDebugLogging" ++
        checkBooleanPref ces "autoCreateFields" ++
        (checkFieldMapping ces).1 ++
        (checkTransforms ces).1 ++
        checkObjectPref ces "static" ++
        checkObjectPref ces "fieldMetadata" ++
        checkStringPref ces "recordTypeName" ++
        checkStringPref ces "dataCategory") ↔ _
    simp only [List.mem_append, n1, n2, n3, n4, n5, n6, n7, n8, n9, n10,
      n11, n12, false_or, or_false]
  constructor
  · exact hmem.trans hbs
  · intro hcond
    have hin : batchSizeErrorMsg ∈
        (validateConfiguration (.obj ces) siteID).errors :=
      (hmem.trans hbs).mpr hcond
    show (validateConfiguration (.obj ces) siteID).errors.isEmpty = false
    cases hE : (validateConfiguration (.obj ces) siteID).errors with
    | nil => rw [hE] at hin; cases hin
    | cons a l => rfl

/-- Witness for C9 (amended) at concrete inputs: `batchSize = 0` is
reported as the batchSize error with `valid = false`, while
`batchSize = 50` is not. -/
theorem c9_batchsize_number_range_witness :
    (batchSizeErrorMsg ∈
      (validateConfiguration (.obj [("batchSize", .num 0)])
        "SiteA").errors) ∧
    (validateConfiguration (.obj [("batchSize", .num 0)])
      "SiteA").valid = false ∧
    batchSizeErrorMsg ∉
      (validateConfiguration (.obj [("batchSize", .num 50)])
        "SiteA").errors := by
  have h0 := c9_batchsize_number_range [("batchSize", .num 0)] "SiteA"
    (.num 0) (by rfl)
  have h50 := c9_batchsize_number_range [("batchSize", .num 50)] "SiteA"
    (.num 50) (by rfl)
  refine ⟨h0.1.mpr (by decide), h0.2 (by decide), ?_⟩
  intro hm
  have := h50.1.mp hm
  exact absurd this (by decide)

/-! ## C8: urlSafe output shape -/

theorem mem_replaceRunsAux {p : Char → Bool} {rep : List Char} :
    ∀ {l : List Char} {b : Bool} {c : Char},
      c ∈ replaceRunsAux p rep b l → c ∈ rep ∨ c ∈ l := by
  intro l
  induction l with
  | nil => intro b c h; cases h
  | cons a as ih =>
    intro b c h
    unfold replaceRunsAux at h
    by_cases hp : p a = true
    · rw [if_pos hp] at h
      cases b with
      | true =>
        rcases ih h with h' | h'
        · exact Or.inl h'
        · exact Or.inr (List.mem_cons_of_mem _ h')
      | false =>
        rcases List.mem_append.1 h with h' | h'
        · exact Or.inl h'
        · rcases ih h' with h'' | h''
          · exact Or.inl h''
          · exact Or.inr (List.mem_cons_of_mem _ h'')
    · rw [if_neg hp] at h
      rcases List.mem_cons.1 h with h' | h'
      · exact Or.inr (h' ▸ List.mem_cons_self a as)
      · rcases ih h' with h'' | h''
        · exact Or.inl h''
        · exact Or.inr (List.mem_cons_of_mem _ h'')

theorem replaceRunsAux_true_head (sep : Char) :
    ∀ (l : List Char) (c : Char),
      (replaceRunsAux (fun x => x == sep) [sep] true l).head? = some c →
      (c == sep) = false := by
  intro l
  induction l with
  | nil => intro c h; cases h
  | cons a as ih =>
    intro c h
    unfold replaceRunsAux at h
    by_cases hp : (a == sep) = true
    · rw [if_pos hp] at h
      exact ih c h
    · rw [if_neg hp] at h
      simp only [List.head?_cons, Option.some.injEq] at h
      rw [← h]
      exact Bool.not_eq_true _ ▸ (by simpa using hp)

theorem replaceRunsAux_chain (sep : Char) :
    ∀ (l : List Char) (b : Bool),
      List.Chain' (fun x y => ¬(x = sep ∧ y = sep))
        (replaceRunsAux (fun c => c == sep) [sep] b l) := by
  intro l
  induction l with
  | nil => intro b; simp [replaceRunsAux]
  | cons a as ih =>
    intro b
    unfold replaceRunsAux
    by_cases hp : (a == sep) = true
    · rw [if_pos hp]
      cases b with
      | true => exact ih true
      | false =>
        show List.Chain' (fun x y => ¬(x = sep ∧ y = sep))
          (sep :: replaceRunsAux (fun c => c == sep) [sep] true as)
        rw [List.chain'_cons']
        refine ⟨?_, ih true⟩
        intro y hy hxy
        have hne := replaceRunsAux_true_head sep as y hy
        rw [hxy.2] at hne
        simp at hne
    · rw [if_neg hp]
      cases b with
      | true =>
        show List.Chain' (fun x y => ¬(x = sep ∧ y = sep))
          (a :: replaceRunsAux (fun c => c == sep) [sep] false as)
        rw [List.chain'_cons']
        refine ⟨?_, ih false⟩
        intro y hy hxy
        exact absurd hxy.1 (by simpa using hp)
      | false =>
        show List.Chain' (fun x y => ¬(x = sep ∧ y = sep))
          (a :: replaceRunsAux (fun c => c == sep) [sep] false as)
        rw [List.chain'_cons']
        refine ⟨?_, ih false⟩
        intro y hy hxy
        exact absurd hxy.1 (by simpa using hp)

theorem chain'_dropWhile {α : Type} {R : α → α → Prop} {f : α → Bool} :
    ∀ {l : List α}, List.Chain' R l → List.Chain' R (l.dropWhile f) := by
  intro l
  induction l with
  | nil => intro h; exact h
  | cons a as ih =>
    intro h
    rw [List.dropWhile_cons]
    by_cases hf : f a = true
    · rw [if_pos hf]
      exact ih (List.Chain'.tail h)
    · rw [if_neg hf]
      exact h

theorem mem_of_mem_dropWhile {α : Type} {f : α → Bool} :
    ∀ {l : List α} {c : α}, c ∈ l.dropWhile f → c ∈ l := by
  intro l
  induction l with
  | nil => intro c h; exact h
  | cons a as ih =>
    intro c h
    rw [List.dropWhile_cons] at h
    by_cases hf : f a = true
    · rw [if_pos hf] at h
      exact List.mem_cons_of_mem _ (ih h)
    · rw [if_neg hf] at h
      exact h

theorem head?_dropWhile_not {α : Type} {f : α → Bool} :
    ∀ {l : List α} {c : α}, (l.dropWhile f).head? = some c → f c = false := by
  intro l
  induction l with
  | nil => intro c h; cases h
  | cons a as ih =>
    intro c h
    rw [List.dropWhile_cons] at h
    by_cases hf : f a = true
    · rw [if_pos hf] at h
      exact ih h
    · rw [if_neg hf] at h
      simp only [List.head?_cons, Option.some.injEq] at h
      rw [← h]
      exact Bool.not_eq_true _ ▸ (by simpa using hf)

theorem getLast?_cons_ne_nil {α : Type} (a : α) {as : List α}
    (h : as ≠ []) : (a :: as).getLast? = as.getLast? := by
  cases as with
  | nil => exact absurd rfl h
  | cons b bs => rfl

theorem getLast?_dropWhile_ne_nil {α : Type} {f : α → Bool} :
    ∀ {l : List α}, l.dropWhile f ≠ [] →
      (l.dropWhile f).getLast? = l.getLast? := by
  intro l
  induction l with
  | nil => intro h; exact absurd rfl h
  | cons a as ih =>
    intro hne
    rw [List.dropWhile_cons] at hne ⊢
    by_cases hf : f a = true
    · rw [if_pos hf] at hne ⊢
      have has : as ≠ [] := by
        intro h
        rw [h] at hne
        exact hne rfl
      rw [ih hne]
      exact (getLast?_cons_ne_nil a has).symm
    · rw [if_neg hf]

theorem trimSeps_mem {sep : Char} {l : List Char} {c : Char}
    (h : c ∈ trimSeps sep l) : c ∈ l := by
  unfold trimSeps at h
  rw [List.mem_reverse] at h
  exact mem_of_mem_dropWhile (List.mem_reverse.1 (mem_of_mem_dropWhile h))

theorem trimSeps_chain {sep : Char} {l : List Char}
    (h : List.Chain' (fun x y => ¬(x = sep ∧ y = sep)) l) :
    List.Chain' (fun x y => ¬(x = sep ∧ y = sep)) (trimSeps sep l) := by
  unfold trimSeps
  rw [List.chain'_reverse]
  apply chain'_dropWhile
  rw [List.chain'_reverse]
  exact chain'_dropWhile h

theorem trimSeps_head {sep : Char} {l : List Char} {c : Char}
    (h : (trimSeps sep l).head? = some c) : c ≠ sep := by
  unfold trimSeps at h
  rw [List.head?_reverse] at h
  have hne : (l.dropWhile (fun c => c == sep)).reverse.dropWhile
      (fun c => c == sep) ≠ [] := by
    intro hh
    rw [hh] at h
    cases h
  rw [getLast?_dropWhile_ne_nil hne, List.getLast?_reverse] at h
  have := head?_dropWhile_not h
  simpa using this

theorem trimSeps_getLast {sep : Char} {l : List Char} {c : Char}
    (h : (trimSeps sep l).getLast? = some c) : c ≠ sep := by
  unfold trimSeps at h
  rw [List.getLast?_reverse] at h
  have := head?_dropWhile_not h
  simpa using this

/-- C8: for every input string and single-character separator, the
`urlSafe` transform's output contains only lowercase alphanumerics and
the separator, never two adjacent separators, and neither starts nor ends
with the separator; and the specification's example evaluates as stated
(`transformUrlSafe`, fieldTransformHelper.js lines 191-221). -/
theorem c8_urlsafe_output_shape :
    (∀ (s : String) (sep : Char),
      (∀ c ∈ (transformUrlSafe s sep).data,
        ('a' ≤ c ∧ c ≤ 'z') ∨ ('0' ≤ c ∧ c ≤ '9') ∨ c = sep) ∧
      List.Chain' (fun x y => ¬(x = sep ∧ y = sep))
        (transformUrlSafe s sep).data ∧
      (∀ c, (transformUrlSafe s sep).data.head? = some c → c ≠ sep) ∧
      (∀ c, (transformUrlSafe s sep).data.getLast? = some c → c ≠ sep)) ∧
    transformUrlSafe "How to Reset Password?" '-' =
      "how-to-reset-password" := by
  constructor
  · intro s sep
    have hdata : (transformUrlSafe s sep).data =
        trimSeps sep (replaceRuns (fun c => c == sep) [sep]
          ((replaceRuns Char.isWhitespace [sep]
            (s.data.map Char.toLower)).filter (isUrlChar sep))) := rfl
    have hchain0 : List.Chain' (fun x y => ¬(x = sep ∧ y = sep))
        (replaceRuns (fun c => c == sep) [sep]
          ((replaceRuns Char.isWhitespace [sep]
            (s.data.map Char.toLower)).filter (isUrlChar sep))) :=
      replaceRunsAux_chain sep _ false
    refine ⟨?_, ?_, ?_, ?_⟩
    · intro c hc
      rw [hdata] at hc
      have hc1 := trimSeps_mem hc
      rcases mem_replaceRunsAux hc1 with h | h
      · right; right
        simpa using h
      · have hfilter := (List.mem_filter.1 h).2
        unfold isUrlChar at hfilter
        simp only [Bool.or_eq_true] at hfilter
        rcases hfilter with h' | h'
        · rcases of_decide_eq_true h' with h'' | h''
          · exact Or.inl h''
          · exact Or.inr (Or.inl h'')
        · right; right
          simpa using h'
    · rw [hdata]
      exact trimSeps_chain hchain0
    · intro c hc
      rw [hdata] at hc
      exact trimSeps_head hc
    · intro c hc
      rw [hdata] at hc
      exact trimSeps_getLast hc
  · decide

/-- Witness for C8 at a concrete input: the first character of the
example output is inside the allowed alphabet and is not the
separator. -/
theorem c8_urlsafe_output_shape_witness :
    ('h' ∈ (transformUrlSafe "How to Reset Password?" '-').data ∧
      (('a' ≤ 'h' ∧ 'h' ≤ 'z') ∨ ('0' ≤ 'h' ∧ 'h' ≤ '9') ∨ 'h' = '-')) ∧
    ((transformUrlSafe "How to Reset Password?" '-').data.head? =
        some 'h' ∧ 'h' ≠ '-') := by
  constructor
  · exact ⟨by decide,
      (c8_urlsafe_output_shape.1 "How to Reset Password?" '-').1 'h'
        (by decide)⟩
  · exact ⟨by decide,
      (c8_urlsafe_output_shape.1 "How to Reset Password?" '-').2.2.1 'h'
        (by decide)⟩

/-! ## C3: publish-step error semantics -/

/-- C3: once the primary write succeeded, a publish failure still yields
`success = true` with a warning and `publishStatus = draft`; a publish
success yields `publishStatus = online`; and with `publishArticles`
false the result is a success with `publishStatus = draft`, no warning,
and is independent of the publish call's outcome (no publish call is
made) — on both the update path and the create path
(`updateArticleWithVersioning` / `createArticle`,
salesforceKnowledgeHelper.js). -/
theorem c3_publish_warning_semantics :
    (∀ (ea : ExistingArticle) (er : SvcResp CreateData) (ur : SvcResp Unit)
        (pr : SvcResp (List ActionResult)),
      respOk ur = true →
      (ea.PublishStatus = "Online" → (editOnlineArticle er).success = true) →
      ((publishArticle pr).success = false →
        (updateArticleWithVersioning ea true er ur pr).success = true ∧
        (updateArticleWithVersioning ea true er ur pr).warning ≠ none ∧
        (updateArticleWithVersioning ea true er ur pr).publishStatus =
          some "draft") ∧
      ((publishArticle pr).success = true →
        (updateArticleWithVersioning ea true er ur pr).success = true ∧
        (updateArticleWithVersioning ea true er ur pr).publishStatus =
          some "online") ∧
      ((updateArticleWithVersioning ea false er ur pr).success = true ∧
       (updateArticleWithVersioning ea false er ur pr).publishStatus =
         some "draft" ∧
       (updateArticleWithVersioning ea false er ur pr).warning = none ∧
       ∀ pr' : SvcResp (List ActionResult),
         updateArticleWithVersioning ea false er ur pr' =
           updateArticleWithVersioning ea false er ur pr)) ∧
    (∀ (cr : SvcResp CreateData) (qr : SvcResp QueryData)
        (pr : SvcResp (List ActionResult)),
      respOk cr = true →
      ((publishArticle pr).success = false →
        (createArticle true cr qr pr).success = true ∧
        (createArticle true cr qr pr).warning ≠ none ∧
        (createArticle true cr qr pr).publishStatus = some "draft") ∧
      ((publishArticle pr).success = true →
        (createArticle true cr qr pr).success = true ∧
        (createArticle true cr qr pr).publishStatus = some "online") ∧
      ((createArticle false cr qr pr).success = true ∧
       (createArticle false cr qr pr).publishStatus = some "draft" ∧
       (createArticle false cr qr pr).warning = none ∧
       ∀ pr' : SvcResp (List ActionResult),
         createArticle false cr qr pr' = createArticle false cr qr pr)) := by
  constructor
  · intro ea er ur pr hu hedit
    refine ⟨?_, ?_, ?_⟩
    · intro hp
      unfold updateArticleWithVersioning
      by_cases ho : ea.PublishStatus = "Online"
      · simp [ho, hedit ho, hu, hp]
      · by_cases hd : ea.PublishStatus = "Draft" <;> simp [ho, hd, hu, hp]
    · intro hp
      unfold updateArticleWithVersioning
      by_cases ho : ea.PublishStatus = "Online"
      · simp [ho, hedit ho, hu, hp]
      · by_cases hd : ea.PublishStatus = "Draft" <;> simp [ho, hd, hu, hp]
    · have hfree : ∀ p' : SvcResp (List ActionResult),
          updateArticleWithVersioning ea false er ur p' =
            updateArticleWithVersioning ea false er ur pr := by
        intro p'
        unfold updateArticleWithVersioning
        by_cases ho : ea.PublishStatus = "Online"
        · simp [ho, hedit ho, hu]
        · by_cases hd : ea.PublishStatus = "Draft" <;> simp [ho, hd, hu]
      refine ⟨?_, ?_, ?_, hfree⟩
      · unfold updateArticleWithVersioning
        by_cases ho : ea.PublishStatus = "Online"
        · simp [ho, hedit ho, hu]
        · by_cases hd : ea.PublishStatus = "Draft" <;> simp [ho, hd, hu]
      · unfold updateArticleWithVersioning
        by_cases ho : ea.PublishStatus = "Online"
        · simp [ho, hedit ho, hu]
        · by_cases hd : ea.PublishStatus = "Draft" <;> simp [ho, hd, hu]
      · unfold updateArticleWithVersioning
        by_cases ho : ea.PublishStatus = "Online"
        · simp [ho, hedit ho, hu]
        · by_cases hd : ea.PublishStatus = "Draft" <;> simp [ho, hd, hu]
  · intro cr qr pr hc
    refine ⟨?_, ?_, ?_⟩
    · intro hp
      unfold createArticle
      simp [hc, hp]
    · intro hp
      unfold createArticle
      simp [hc, hp]
    · have hall : ∀ p : SvcResp (List ActionResult),
          createArticle false cr qr p = createArticle false cr qr pr := by
        intro p
        unfold createArticle
        simp [hc]
      refine ⟨?_, ?_, ?_, hall⟩
      · unfold createArticle
        simp [hc]
      · unfold createArticle
        simp [hc]
      · unfold createArticle
        simp [hc]

/-- Witness for C3 at concrete responses: a found Draft is updated
successfully, the publish call fails, and the result is a success with a
warning and `publishStatus = draft`; with `publishArticles` false no
warning appears. -/
theorem c3_publish_warning_semantics_witness :
    (updateArticleWithVersioning ⟨"ka0D1", "kA0M1", "Draft"⟩ true
      ⟨true, some ⟨true, none, ⟨"unused"⟩⟩, none⟩
      ⟨true, some ⟨true, none, ()⟩, none⟩
      ⟨false, none, none⟩).success = true ∧
    (updateArticleWithVersioning ⟨"ka0D1", "kA0M1", "Draft"⟩ true
      ⟨true, some ⟨true, none, ⟨"unused"⟩⟩, none⟩
      ⟨true, some ⟨true, none, ()⟩, none⟩
      ⟨false, none, none⟩).warning ≠ none ∧
    (updateArticleWithVersioning ⟨"ka0D1", "kA0M1", "Draft"⟩ true
      ⟨true, some ⟨true, none, ⟨"unused"⟩⟩, none⟩
      ⟨true, some ⟨true, none, ()⟩, none⟩
      ⟨false, none, none⟩).publishStatus = some "draft" ∧
    (updateArticleWithVersioning ⟨"ka0D1", "kA0M1", "Draft"⟩ false
      ⟨true, some ⟨true, none, ⟨"unused"⟩⟩, none⟩
      ⟨true, some ⟨true, none, ()⟩, none⟩
      ⟨false, none, none⟩).warning = none := by
  have h := c3_publish_warning_semantics.1 ⟨"ka0D1", "kA0M1", "Draft"⟩
    ⟨true, some ⟨true, none, ⟨"unused"⟩⟩, none⟩
    ⟨true, some ⟨true, none, ()⟩, none⟩
    ⟨false, none, none⟩
    (by rfl) (fun ho => absurd ho (by decide))
  have h1 := h.1 (by rfl)
  exact ⟨h1.1, h1.2.1, by rfl, (h.2.2).2.2.1⟩

/-! ## C1: versionId and masterId on the versioned-update paths -/

/-- C1 counterexample to the claim as stated: when the post-create
re-query for the master id fails (here: transport status not OK, though
the queried row names the real master `kA0MASTER`), `createArticle`
still reports success and falls back to reporting the returned version
id as `knowledgeArticleId` — the master id is then assumed equal to the
version id (salesforceKnowledgeHelper.js lines 537-555). -/
theorem c1_create_masterid_fallback :
    (createArticle false
      ⟨true, some ⟨true, none, ⟨"ka0V001"⟩⟩, none⟩
      ⟨false, some ⟨true, none, ⟨[⟨"ka0V001", "kA0MASTER", "Draft", 1⟩]⟩⟩,
        none⟩
      ⟨true, some ⟨true, none, []⟩, none⟩).success = true ∧
    (createArticle false
      ⟨true, some ⟨true, none, ⟨"ka0V001"⟩⟩, none⟩
      ⟨false, some ⟨true, none, ⟨[⟨"ka0V001", "kA0MASTER", "Draft", 1⟩]⟩⟩,
        none⟩
      ⟨true, some ⟨true, none, []⟩, none⟩).knowledgeArticleId =
        some "ka0V001" ∧
    (createArticle false
      ⟨true, some ⟨true, none, ⟨"ka0V001"⟩⟩, none⟩
      ⟨false, some ⟨true, none, ⟨[⟨"ka0V001", "kA0MASTER", "Draft", 1⟩]⟩⟩,
        none⟩
      ⟨true, some ⟨true, none, []⟩, none⟩).versionId = some "ka0V001" ∧
    (createArticle false
      ⟨true, some ⟨true, none, ⟨"ka0V001"⟩⟩, none⟩
      ⟨false, some ⟨true, none, ⟨[⟨"ka0V001", "kA0MASTER", "Draft", 1⟩]⟩⟩,
        none⟩
      ⟨true, some ⟨true, none, []⟩, none⟩).knowledgeArticleId ≠
        some "kA0MASTER" := by
  refine ⟨rfl, rfl, rfl, by decide⟩

/-! ## State-model lemmas (lookup and remote operations) -/

theorem newestMatch_eq_none {p : SVersion → Bool} {l : List SVersion} :
    newestMatch p l = none ↔ l.filter p = [] := by
  unfold newestMatch
  cases h : l.filter p <;> simp [h]

theorem foldl_newest_mem :
    ∀ (vs : List SVersion) (v : SVersion),
      vs.foldl (fun b w => if b.versionNumber < w.versionNumber then w else b)
        v ∈ v :: vs := by
  intro vs
  induction vs with
  | nil => intro v; exact List.mem_cons_self v []
  | cons w ws ih =>
    intro v
    rw [List.foldl_cons]
    rcases List.mem_cons.1
        (ih (if v.versionNumber < w.versionNumber then w else v)) with
      h | h
    · by_cases hvw : v.versionNumber < w.versionNumber
      · rw [if_pos hvw] at h ⊢
        rw [h]
        exact List.mem_cons_of_mem _ (List.mem_cons_self w ws)
      · rw [if_neg hvw] at h ⊢
        rw [h]
        exact List.mem_cons_self v (w :: ws)
    · exact List.mem_cons_of_mem _ (List.mem_cons_of_mem _ h)

theorem newestMatch_mem {p : SVersion → Bool} {l : List SVersion}
    {a : SVersion} (h : newestMatch p l = some a) :
    a ∈ l ∧ p a = true := by
  unfold newestMatch at h
  cases hf : l.filter p with
  | nil => rw [hf] at h; cases h
  | cons v vs =>
    rw [hf] at h
    simp only [Option.some.injEq] at h
    have hmem : a ∈ v :: vs := h ▸ foldl_newest_mem vs v
    rw [← hf] at hmem
    exact ⟨(List.mem_filter.1 hmem).1, (List.mem_filter.1 hmem).2⟩

theorem newestMatch_singleton {p : SVersion → Bool} {l : List SVersion}
    {x : SVersion} (h : l.filter p = [x]) : newestMatch p l = some x := by
  unfold newestMatch
  rw [h]
  rfl

theorem filter_eq_nil_present {p : SVersion → Bool} {l : List SVersion}
    (h : l.filter p = []) : ∀ v ∈ l, p v = false := by
  intro v hv
  by_cases hp : p v = true
  · exact absurd (List.mem_filter.2 ⟨hv, hp⟩) (by rw [h]; exact fun hh => (List.not_mem_nil v) hh)
  · exact Bool.not_eq_true _ ▸ hp

theorem list_map_id_of {α : Type} (l : List α) (f : α → α)
    (h : ∀ x ∈ l, f x = x) : l.map f = l := by
  induction l with
  | nil => rfl
  | cons a as ih =>
    rw [List.map_cons, h a (List.mem_cons_self a as),
      ih (fun x hx => h x (List.mem_cons_of_mem _ hx))]

theorem sfPatch_self {st : SfState} {a : SVersion} {ext : String}
    (hwf : WF st) (ha : a ∈ st.versions) (hext : a.externalId = ext) :
    sfPatch st a.vid ext = st := by
  unfold sfPatch
  have hmap : st.versions.map
      (fun v => if v.vid = a.vid then { v with externalId := ext } else v) =
      st.versions := by
    apply list_map_id_of
    intro v hv
    by_cases hvid : v.vid = a.vid
    · rw [if_pos hvid]
      have hva : v = a := hwf.2 v hv a ha hvid
      rw [hva, ← hext]
    · rw [if_neg hvid]
  rw [hmap]

theorem sfPatch_fresh_append {vs : List SVersion} {n' : Nat}
    {newv : SVersion} {ext : String}
    (hlt : ∀ v ∈ vs, v.vid < newv.vid) :
    sfPatch ⟨vs ++ [newv], n'⟩ newv.vid ext =
      ⟨vs ++ [{ newv with externalId := ext }], n'⟩ := by
  unfold sfPatch
  simp only [List.map_append, List.map_cons, List.map_nil, if_pos rfl]
  congr 1
  apply congrArg (· ++ _)
  apply list_map_id_of
  intro v hv
  rw [if_neg (Nat.ne_of_lt (hlt v hv))]

theorem newestMatch_append_left {p : SVersion → Bool}
    {l1 l2 : List SVersion} (h2 : l2.filter p = []) :
    newestMatch p (l1 ++ l2) = newestMatch p l1 := by
  unfold newestMatch
  rw [List.filter_append, h2, List.append_nil]

theorem newestMatch_append_single {p : SVersion → Bool}
    {l1 : List SVersion} {x : SVersion}
    (h1 : l1.filter p = []) (hx : p x = true) :
    newestMatch p (l1 ++ [x]) = some x := by
  apply newestMatch_singleton
  rw [List.filter_append, h1, List.nil_append]
  simp [hx]

theorem upsertS_eq_update {st : SfState} {ext : String} {a : SVersion}
    {pub : Bool} (hfind : findArticleByExternalId st ext = some a) :
    upsertKnowledgeArticleS st ext pub =
      updateArticleWithVersioningS st a ext pub := by
  unfold upsertKnowledgeArticleS
  rw [hfind]

theorem upsertS_eq_create {st : SfState} {ext : String} {pub : Bool}
    (hfind : findArticleByExternalId st ext = none) :
    upsertKnowledgeArticleS st ext pub = createArticleS st ext pub := by
  unfold upsertKnowledgeArticleS
  rw [hfind]

theorem updateS_not_online {st : SfState} {a : SVersion} {ext : String}
    {pub : Bool} (hs : ¬a.publishStatus = "Online") :
    updateArticleWithVersioningS st a ext pub =
      updateDraftS st a a.vid ext pub := by
  unfold updateArticleWithVersioningS
  rw [if_neg hs]

theorem updateDraftS_false (st : SfState) (a : SVersion) (dId : Nat)
    (ext : String) :
    updateDraftS st a dId ext false =
      (sfPatch st dId ext, ⟨true, a.masterId, dId, "update", "draft"⟩) :=
  rfl

theorem updateDraftS_true (st : SfState) (a : SVersion) (dId : Nat)
    (ext : String) :
    updateDraftS st a dId ext true =
      (sfPublish (sfPatch st dId ext) dId,
        ⟨true, a.masterId, dId, "update", "online"⟩) :=
  rfl

theorem sfPatch_length (st : SfState) (vid : Nat) (ext : String) :
    (sfPatch st vid ext).versions.length = st.versions.length := by
  unfold sfPatch
  simp

theorem updateS_online {st : SfState} {a : SVersion} {ext : String}
    {pub : Bool} (hs : a.publishStatus = "Online") (ha : a ∈ st.versions) :
    ∃ src : SVersion,
      newestMatch
        (fun v => v.masterId == a.masterId && v.publishStatus == "Online")
        st.versions = some src ∧
      updateArticleWithVersioningS st a ext pub =
        updateDraftS
          ⟨st.versions ++
            [⟨st.nextId, a.masterId, "Draft", src.externalId,
              src.versionNumber + 1⟩],
            st.nextId + 1⟩ a st.nextId ext pub := by
  cases hq : newestMatch
      (fun v => v.masterId == a.masterId && v.publishStatus == "Online")
      st.versions with
  | none =>
    exfalso
    have hnil := newestMatch_eq_none.1 hq
    have := filter_eq_nil_present hnil a ha
    simp [hs] at this
  | some src =>
    refine ⟨src, rfl, ?_⟩
    have hE : sfEditOnline st a.masterId =
        (⟨st.versions ++
          [⟨st.nextId, a.masterId, "Draft", src.externalId,
            src.versionNumber + 1⟩],
          st.nextId + 1⟩, some st.nextId) := by
      unfold sfEditOnline
      rw [hq]
    unfold updateArticleWithVersioningS
    rw [if_pos hs, hE]

theorem createS_false_wf {st : SfState} {ext : String}
    (hwf1 : ∀ v ∈ st.versions, v.vid < st.nextId) :
    createArticleS st ext false =
      (⟨st.versions ++ [⟨st.nextId, st.nextId + 1, "Draft", ext, 1⟩],
        st.nextId + 2⟩,
       ⟨true, st.nextId + 1, st.nextId, "create", "draft"⟩) := by
  have hfind : (st.versions ++
      [(⟨st.nextId, st.nextId + 1, "Draft", ext, 1⟩ : SVersion)]).find?
        (fun v => v.vid == st.nextId) =
      some ⟨st.nextId, st.nextId + 1, "Draft", ext, 1⟩ := by
    rw [List.find?_append]
    have h1 : st.versions.find? (fun v => v.vid == st.nextId) = none := by
      rw [List.find?_eq_none]
      intro v hv
      simp [Nat.ne_of_lt (hwf1 v hv)]
    rw [h1]
    simp [List.find?]
  unfold createArticleS sfCreate
  simp only [hfind]
  rfl

theorem find_append_draft {V : List SVersion} {n : Nat} {newd : SVersion}
    {ext : String}
    (hV : V.filter
      (fun v => v.externalId == ext && v.publishStatus == "Draft") = [])
    (hd1 : newd.externalId = ext) (hd2 : newd.publishStatus = "Draft") :
    findArticleByExternalId ⟨V ++ [newd], n⟩ ext = some newd := by
  unfold findArticleByExternalId
  have h : newestMatch
      (fun v => v.externalId == ext && v.publishStatus == "Draft")
      (V ++ [newd]) = some newd :=
    newestMatch_append_single hV (by simp [hd1, hd2])
  rw [h]

/-! ## C2: upsert idempotence -/

/-- C2: with `publishArticles` false and no intervening external change,
running the upsert twice returns the same `versionId` both times — the
Draft-first lookup finds the draft left by the first call and updates it
in place, creating no new version (second-call version count is
unchanged); and whenever a matching Draft exists, the lookup returns a
Draft (`findArticleByExternalId` / `upsertKnowledgeArticle`,
salesforceKnowledgeHelper.js; remote modelled per §6). -/
theorem c2_upsert_twice_same_versionId (st : SfState) (ext : String)
    (hwf : WF st) :
    (upsertKnowledgeArticleS st ext false).2.success = true ∧
    (upsertKnowledgeArticleS (upsertKnowledgeArticleS st ext false).1 ext
        false).2.versionId =
      (upsertKnowledgeArticleS st ext false).2.versionId ∧
    (upsertKnowledgeArticleS (upsertKnowledgeArticleS st ext false).1 ext
        false).1.versions.length =
      (upsertKnowledgeArticleS st ext false).1.versions.length ∧
    (∀ st' : SfState,
      (∃ v ∈ st'.versions, v.externalId = ext ∧ v.publishStatus = "Draft") →
      ∃ a, findArticleByExternalId st' ext = some a ∧
        a.publishStatus = "Draft") := by
  have hprio : ∀ st' : SfState,
      (∃ v ∈ st'.versions, v.externalId = ext ∧ v.publishStatus = "Draft") →
      ∃ a, findArticleByExternalId st' ext = some a ∧
        a.publishStatus = "Draft" := by
    intro st' ⟨v, hv, hvext, hvst⟩
    cases hd : newestMatch
        (fun w => w.externalId == ext && w.publishStatus == "Draft")
        st'.versions with
    | none =>
      exfalso
      have := filter_eq_nil_present (newestMatch_eq_none.1 hd) v hv
      simp [hvext, hvst] at this
    | some a =>
      obtain ⟨_, hpa⟩ := newestMatch_mem hd
      simp only [Bool.and_eq_true, beq_iff_eq] at hpa
      refine ⟨a, ?_, hpa.2⟩
      unfold findArticleByExternalId
      rw [hd]
  cases hd : newestMatch
      (fun v => v.externalId == ext && v.publishStatus == "Draft")
      st.versions with
  | some a =>
    obtain ⟨ha, hpa⟩ := newestMatch_mem hd
    simp only [Bool.and_eq_true, beq_iff_eq] at hpa
    have hfind : findArticleByExternalId st ext = some a := by
      unfold findArticleByExternalId
      rw [hd]
    have h1 : upsertKnowledgeArticleS st ext false =
        (st, ⟨true, a.masterId, a.vid, "update", "draft"⟩) := by
      rw [upsertS_eq_update hfind,
        updateS_not_online (by rw [hpa.2]; decide),
        updateDraftS_false, sfPatch_self hwf ha hpa.1]
    refine ⟨by simp only [h1], ?_, ?_, hprio⟩
    · simp only [h1]
    · simp only [h1]
  | none =>
    cases ho : newestMatch
        (fun v => v.externalId == ext && v.publishStatus == "Online")
        st.versions with
    | some a =>
      obtain ⟨ha, hpa⟩ := newestMatch_mem ho
      simp only [Bool.and_eq_true, beq_iff_eq] at hpa
      have hfind : findArticleByExternalId st ext = some a := by
        unfold findArticleByExternalId
        rw [hd, ho]
      obtain ⟨src, hq, hupd⟩ :=
        @updateS_online st a ext false hpa.2 ha
      have hVnil := newestMatch_eq_none.1 hd
      have hpatch : sfPatch
          ⟨st.versions ++
            [⟨st.nextId, a.masterId, "Draft", src.externalId,
              src.versionNumber + 1⟩], st.nextId + 1⟩
          st.nextId ext =
          ⟨st.versions ++
            [⟨st.nextId, a.masterId, "Draft", ext,
              src.versionNumber + 1⟩], st.nextId + 1⟩ :=
        sfPatch_fresh_append (fun v hv => hwf.1 v hv)
      have h1 : upsertKnowledgeArticleS st ext false =
          (⟨st.versions ++
            [⟨st.nextId, a.masterId, "Draft", ext,
              src.versionNumber + 1⟩], st.nextId + 1⟩,
           ⟨true, a.masterId, st.nextId, "update", "draft"⟩) := by
        rw [upsertS_eq_update hfind, hupd, updateDraftS_false, hpatch]
      have hfind2 : findArticleByExternalId
          ⟨st.versions ++
            [⟨st.nextId, a.masterId, "Draft", ext,
              src.versionNumber + 1⟩], st.nextId + 1⟩ ext =
          some ⟨st.nextId, a.masterId, "Draft", ext,
            src.versionNumber + 1⟩ :=
        find_append_draft hVnil rfl rfl
      have h2 : upsertKnowledgeArticleS
          ⟨st.versions ++
            [⟨st.nextId, a.masterId, "Draft", ext,
              src.versionNumber + 1⟩], st.nextId + 1⟩ ext false =
          (sfPatch
            ⟨st.versions ++
              [⟨st.nextId, a.masterId, "Draft", ext,
                src.versionNumber + 1⟩], st.nextId + 1⟩ st.nextId ext,
           ⟨true, a.masterId, st.nextId, "update", "draft"⟩) := by
        rw [upsertS_eq_update hfind2,
          updateS_not_online (a := ⟨st.nextId, a.masterId, "Draft", ext,
            src.versionNumber + 1⟩) (by simp), updateDraftS_false]
      refine ⟨by simp only [h1], ?_, ?_, hprio⟩
      · simp only [h1, h2]
      · simp only [h1, h2, sfPatch_length]
    | none =>
      cases hall : newestMatch (fun v => v.externalId == ext)
          st.versions with
      | some a =>
        obtain ⟨ha, hpa⟩ := newestMatch_mem hall
        simp only [beq_iff_eq] at hpa
        have hnotdraft : ¬a.publishStatus = "Draft" := by
          intro hc
          have := filter_eq_nil_present (newestMatch_eq_none.1 hd) a ha
          simp [hpa, hc] at this
        have hnotonline : ¬a.publishStatus = "Online" := by
          intro hc
          have := filter_eq_nil_present (newestMatch_eq_none.1 ho) a ha
          simp [hpa, hc] at this
        have hfind : findArticleByExternalId st ext = some a := by
          unfold findArticleByExternalId
          rw [hd, ho, hall]
        have h1 : upsertKnowledgeArticleS st ext false =
            (st, ⟨true, a.masterId, a.vid, "update", "draft"⟩) := by
          rw [upsertS_eq_update hfind, updateS_not_online hnotonline,
            updateDraftS_false, sfPatch_self hwf ha hpa]
        refine ⟨by simp only [h1], ?_, ?_, hprio⟩
        · simp only [h1]
        · simp only [h1]
      | none =>
        have hVall := newestMatch_eq_none.1 hall
        have hVdr : st.versions.filter
            (fun v => v.externalId == ext && v.publishStatus == "Draft") =
            [] := by
          rw [List.filter_eq_nil]
          intro v hv hc
          have := filter_eq_nil_present hVall v hv
          simp only [Bool.and_eq_true] at hc
          rw [hc.1] at this
          cases this
        have hfind : findArticleByExternalId st ext = none := by
          unfold findArticleByExternalId
          rw [hd, ho, hall]
        have h1 : upsertKnowledgeArticleS st ext false =
            (⟨st.versions ++
              [⟨st.nextId, st.nextId + 1, "Draft", ext, 1⟩],
              st.nextId + 2⟩,
             ⟨true, st.nextId + 1, st.nextId, "create", "draft"⟩) := by
          rw [upsertS_eq_create hfind, createS_false_wf hwf.1]
        have hfind2 : findArticleByExternalId
            ⟨st.versions ++
              [⟨st.nextId, st.nextId + 1, "Draft", ext, 1⟩],
              st.nextId + 2⟩ ext =
            some ⟨st.nextId, st.nextId + 1, "Draft", ext, 1⟩ :=
          find_append_draft hVdr rfl rfl
        have h2 : upsertKnowledgeArticleS
            ⟨st.versions ++
              [⟨st.nextId, st.nextId + 1, "Draft", ext, 1⟩],
              st.nextId + 2⟩ ext false =
            (sfPatch
              ⟨st.versions ++
                [⟨st.nextId, st.nextId + 1, "Draft", ext, 1⟩],
                st.nextId + 2⟩ st.nextId ext,
             ⟨true, st.nextId + 1, st.nextId, "update", "draft"⟩) := by
          rw [upsertS_eq_update hfind2,
            updateS_not_online (a := ⟨st.nextId, st.nextId + 1, "Draft",
              ext, 1⟩) (by simp), updateDraftS_false]
        refine ⟨by simp only [h1], ?_, ?_, hprio⟩
        · simp only [h1, h2]
        · simp only [h1, h2, sfPatch_length]

/-- Witness for C2: starting from an empty remote store, the first call
creates version 0 and the second call updates it in place. -/
theorem c2_upsert_twice_same_versionId_witness :
    WF ⟨[], 0⟩ ∧
    (upsertKnowledgeArticleS (upsertKnowledgeArticleS ⟨[], 0⟩ "faq-001"
        false).1 "faq-001" false).2.versionId =
      (upsertKnowledgeArticleS ⟨[], 0⟩ "faq-001" false).2.versionId ∧
    (upsertKnowledgeArticleS ⟨[], 0⟩ "faq-001" false).2.versionId = 0 := by
  refine ⟨⟨by simp, by simp⟩, ?_, by decide⟩
  exact (c2_upsert_twice_same_versionId ⟨[], 0⟩ "faq-001"
    ⟨by simp, by simp⟩).2.1

theorem find_mem {st : SfState} {ext : String} {a : SVersion}
    (h : findArticleByExternalId st ext = some a) :
    a ∈ st.versions ∧ a.externalId = ext := by
  unfold findArticleByExternalId at h
  cases hd : newestMatch
      (fun v => v.externalId == ext && v.publishStatus == "Draft")
      st.versions with
  | some b =>
    rw [hd] at h
    cases h
    obtain ⟨hb, hp⟩ := newestMatch_mem hd
    simp only [Bool.and_eq_true, beq_iff_eq] at hp
    exact ⟨hb, hp.1⟩
  | none =>
    rw [hd] at h
    cases ho : newestMatch
        (fun v => v.externalId == ext && v.publishStatus == "Online")
        st.versions with
    | some b =>
      rw [ho] at h
      cases h
      obtain ⟨hb, hp⟩ := newestMatch_mem ho
      simp only [Bool.and_eq_true, beq_iff_eq] at hp
      exact ⟨hb, hp.1⟩
    | none =>
      rw [ho] at h
      obtain ⟨hb, hp⟩ := newestMatch_mem h
      simp only [beq_iff_eq] at hp
      exact ⟨hb, hp⟩

/-- C1 (amended): when the found version is Online the upsert reports a
fresh `versionId` different from the found version's id with the found
version's master id; on the control-flow side every successful update
reports the found article's `KnowledgeArticleId`, and the create path
reports the re-queried `KnowledgeArticleId` when the post-create query
succeeds with at least one row — but falls back to the returned version
id when that query fails (it is not "never assumed equal to the version
id"). -/
theorem c1_masterid_reporting :
    (∀ (st : SfState) (ext : String) (a : SVersion) (pub : Bool),
      WF st →
      findArticleByExternalId st ext = some a →
      a.publishStatus = "Online" →
      (upsertKnowledgeArticleS st ext pub).2.success = true ∧
      (upsertKnowledgeArticleS st ext pub).2.versionId ≠ a.vid ∧
      (upsertKnowledgeArticleS st ext pub).2.knowledgeArticleId =
        a.masterId) ∧
    (∀ (ea : ExistingArticle) (pub : Bool) (er : SvcResp CreateData)
        (ur : SvcResp Unit) (pr : SvcResp (List ActionResult)),
      (updateArticleWithVersioning ea pub er ur pr).success = true →
      (updateArticleWithVersioning ea pub er ur pr).knowledgeArticleId =
        some ea.KnowledgeArticleId) ∧
    (∀ (pub : Bool) (cr : SvcResp CreateData) (qr : SvcResp QueryData)
        (pr : SvcResp (List ActionResult)) (r : ArticleRec)
        (rest : List ArticleRec),
      respOk cr = true → respOk qr = true →
      (respData qr ⟨[]⟩).records = r :: rest →
      (createArticle pub cr qr pr).knowledgeArticleId =
        some r.KnowledgeArticleId) ∧
    (∀ (pub : Bool) (cr : SvcResp CreateData) (qr : SvcResp QueryData)
        (pr : SvcResp (List ActionResult)),
      respOk cr = true → respOk qr = false →
      (createArticle pub cr qr pr).knowledgeArticleId =
        some (respData cr ⟨""⟩).id) := by
  refine ⟨?_, ?_, ?_, ?_⟩
  · intro st ext a pub hwf hfind honl
    obtain ⟨ha, hext⟩ := find_mem hfind
    obtain ⟨src, hq, hupd⟩ := @updateS_online st a ext pub honl ha
    have hne : st.nextId ≠ a.vid := Ne.symm (Nat.ne_of_lt (hwf.1 a ha))
    rw [upsertS_eq_update hfind, hupd]
    cases pub with
    | false =>
      rw [updateDraftS_false]
      exact ⟨rfl, hne, rfl⟩
    | true =>
      rw [updateDraftS_true]
      exact ⟨rfl, hne, rfl⟩
  · intro ea pub er ur pr h
    by_cases ho : ea.PublishStatus = "Online"
    · by_cases he : (editOnlineArticle er).success = true
      · by_cases hu : respOk ur = false
        · simp [updateArticleWithVersioning, ho, he, hu] at h
        · cases pub with
          | false => simp [updateArticleWithVersioning, ho, he, hu]
          | true =>
            by_cases hp : (publishArticle pr).success = false
            · simp [updateArticleWithVersioning, ho, he, hu, hp]
            · simp [updateArticleWithVersioning, ho, he, hu, hp]
      · simp [updateArticleWithVersioning, ho, he] at h
    · by_cases hu : respOk ur = false
      · simp [updateArticleWithVersioning, ho, hu] at h
      · cases pub with
        | false => simp [updateArticleWithVersioning, ho, hu]
        | true =>
          by_cases hp : (publishArticle pr).success = false
          · simp [updateArticleWithVersioning, ho, hu, hp]
          · simp [updateArticleWithVersioning, ho, hu, hp]
  · intro pub cr qr pr r rest hcr hqr hrec
    cases pub with
    | false => simp [createArticle, hcr, hqr, hrec]
    | true =>
      by_cases hp : (publishArticle pr).success = false
      · simp [createArticle, hcr, hqr, hrec, hp]
      · simp [createArticle, hcr, hqr, hrec, hp]
  · intro pub cr qr pr hcr hqr
    cases pub with
    | false => simp [createArticle, hcr, hqr]
    | true =>
      by_cases hp : (publishArticle pr).success = false
      · simp [createArticle, hcr, hqr, hp]
      · simp [createArticle, hcr, hqr, hp]

/-- Witness for C1 (amended): a store holding one Online version with id
0 and master id 7; the upsert reports success with a fresh version id
(not 0) and master id 7. -/
theorem c1_masterid_reporting_witness :
    WF ⟨[⟨0, 7, "Online", "faq-001", 1⟩], 8⟩ ∧
    (upsertKnowledgeArticleS ⟨[⟨0, 7, "Online", "faq-001", 1⟩], 8⟩
        "faq-001" false).2.success = true ∧
    (upsertKnowledgeArticleS ⟨[⟨0, 7, "Online", "faq-001", 1⟩], 8⟩
        "faq-001" false).2.versionId ≠
      (⟨0, 7, "Online", "faq-001", 1⟩ : SVersion).vid ∧
    (upsertKnowledgeArticleS ⟨[⟨0, 7, "Online", "faq-001", 1⟩], 8⟩
        "faq-001" false).2.knowledgeArticleId =
      (⟨0, 7, "Online", "faq-001", 1⟩ : SVersion).masterId :=
  ⟨⟨by decide, by decide⟩,
   c1_masterid_reporting.1 ⟨[⟨0, 7, "Online", "faq-001", 1⟩], 8⟩
     "faq-001" ⟨0, 7, "Online", "faq-001", 1⟩ false
     ⟨by decide, by decide⟩ (by decide) rfl⟩

/-! ## Batch-orchestrator lemmas -/

theorem join_batches {α : Type} (bs : Nat) (hbs : 0 < bs) :
    ∀ (k : Nat) (l : List α), l.length ≤ k * bs →
      ((List.range k).map (batchOf l bs)).flatten = l := by
  intro k
  induction k with
  | zero =>
    intro l hl
    rw [Nat.zero_mul] at hl
    have hnil : l = [] :=
      List.eq_nil_of_length_eq_zero (Nat.le_zero.mp hl)
    subst hnil
    simp
  | succ k ih =>
    intro l hl
    rw [List.range_succ_eq_map, List.map_cons, List.flatten_cons,
      List.map_map]
    have hfun : (batchOf l bs) ∘ Nat.succ = batchOf (l.drop bs) bs := by
      funext i
      show (l.drop ((i + 1) * bs)).take bs =
        ((l.drop bs).drop (i * bs)).take bs
      rw [List.drop_drop, Nat.succ_mul, Nat.add_comm (i * bs) bs]
    rw [hfun, ih (l.drop bs) ?_]
    · show (l.drop (0 * bs)).take bs ++ l.drop bs = l
      rw [Nat.zero_mul, List.drop_zero, List.take_append_drop]
    · rw [Nat.succ_mul] at hl
      simp only [List.length_drop]
      omega

theorem length_le_batches_mul (n bs : Nat) (hbs : 0 < bs) :
    n ≤ totalBatchesOf n bs * bs := by
  unfold totalBatchesOf
  have hdm := Nat.div_add_mod (n + bs - 1) bs
  have hmlt : (n + bs - 1) % bs < bs := Nat.mod_lt _ hbs
  rw [Nat.mul_comm]
  omega

theorem exportStep_processed {α : Type}
    (f : List α → Except String BatchResult) (l : List α) (bs : Nat)
    (r : RunResult) (i : Nat) :
    (exportStep f l bs r i).totalProcessed =
      r.totalProcessed + (batchOf l bs i).length := by
  cases hf : f (batchOf l bs i) with
  | ok br =>
    by_cases hs : br.success = true
    · simp [exportStep, hf, hs]
    · simp [exportStep, hf, hs]
  | error m => simp [exportStep, hf]

theorem export_fold_processed {α : Type}
    (f : List α → Except String BatchResult) (l : List α) (bs : Nat) :
    ∀ (k : Nat) (r : RunResult),
      ((List.range k).foldl (exportStep f l bs) r).totalProcessed =
        r.totalProcessed +
          ((List.range k).map (fun i => (batchOf l bs i).length)).sum := by
  intro k
  induction k with
  | zero => intro r; simp
  | succ k ih =>
    intro r
    rw [List.range_succ, List.foldl_append, List.map_append,
      List.sum_append]
    simp only [List.foldl_cons, List.foldl_nil, List.map_cons,
      List.map_nil, List.sum_cons, List.sum_nil]
    rw [exportStep_processed, ih]
    omega

theorem exportBatch_fold {α : Type} (assetId : α → String)
    (upsert : α → SyncOutcome) :
    ∀ (b : List α) (r : BatchResult),
      ((b.foldl
        (fun r a =>
          let u := upsert a
          let r1 :=
            { r with details := r.details ++ [(assetId a, u.success)] }
          if u.success then
            { r1 with successCount := r1.successCount + 1 }
          else { r1 with failureCount := r1.failureCount + 1 }) r).success =
        r.success) ∧
      ((b.foldl
        (fun r a =>
          let u := upsert a
          let r1 :=
            { r with details := r.details ++ [(assetId a, u.success)] }
          if u.success then
            { r1 with successCount := r1.successCount + 1 }
          else { r1 with failureCount := r1.failureCount + 1 })
          r).successCount =
        r.successCount + b.countP (fun a => (upsert a).success)) := by
  intro b
  induction b with
  | nil => intro r; exact ⟨rfl, by simp⟩
  | cons a as ih =>
    intro r
    by_cases hu : (upsert a).success = true
    · rw [List.foldl_cons]
      obtain ⟨ih1, ih2⟩ := ih _
      refine ⟨?_, ?_⟩
      · simp only [hu, if_pos] at ih1 ⊢
        exact ih1
      · simp only [hu, if_pos] at ih2 ⊢
        rw [ih2, List.countP_cons]
        simp [hu]
        omega
    · rw [List.foldl_cons]
      obtain ⟨ih1, ih2⟩ := ih _
      refine ⟨?_, ?_⟩
      · simp only [hu, if_neg] at ih1 ⊢
        exact ih1
      · simp only [hu, if_neg] at ih2 ⊢
        rw [ih2, List.countP_cons]
        simp [hu]

theorem exportBatch_spec {α : Type} (b : List α) (assetId : α → String)
    (upsert : α → SyncOutcome) :
    (exportBatch b assetId upsert).success = true ∧
    (exportBatch b assetId upsert).successCount =
      b.countP (fun a => (upsert a).success) := by
  unfold exportBatch
  by_cases h0 : b.length = 0
  · have hb : b = [] := List.eq_nil_of_length_eq_zero h0
    subst hb
    exact ⟨rfl, rfl⟩
  · rw [if_neg h0]
    obtain ⟨h1, h2⟩ := exportBatch_fold assetId upsert b ⟨true, 0, 0, none, []⟩
    exact ⟨h1, by simpa using h2⟩

theorem exportStep_counts_ok {α : Type} (l : List α) (bs : Nat)
    (assetId : α → String) (upsert : α → SyncOutcome) (r : RunResult)
    (i : Nat)
    (hc : 0 < (batchOf l bs i).countP (fun a => (upsert a).success)) :
    (exportStep (fun b => Except.ok (exportBatch b assetId upsert))
        l bs r i).totalSuccess =
      r.totalSuccess +
        (batchOf l bs i).countP (fun a => (upsert a).success) ∧
    (exportStep (fun b => Except.ok (exportBatch b assetId upsert))
        l bs r i).totalFailed = r.totalFailed := by
  obtain ⟨hs, hcnt⟩ := exportBatch_spec (batchOf l bs i) assetId upsert
  have hne : (batchOf l bs i).countP (fun a => (upsert a).success) ≠ 0 :=
    Nat.pos_iff_ne_zero.mp hc
  constructor
  · simp [exportStep, hs, hcnt, hne]
  · simp [exportStep, hs, hcnt, hne]

theorem export_fold_counts {α : Type} (l : List α) (bs : Nat)
    (assetId : α → String) (upsert : α → SyncOutcome) :
    ∀ (k : Nat),
      (∀ i < k, 0 < (batchOf l bs i).countP
        (fun a => (upsert a).success)) →
      ∀ (r : RunResult),
      ((List.range k).foldl
          (exportStep (fun b => Except.ok (exportBatch b assetId upsert))
            l bs) r).totalSuccess =
        r.totalSuccess +
          ((List.range k).map (fun i => (batchOf l bs i).countP
            (fun a => (upsert a).success))).sum ∧
      ((List.range k).foldl
          (exportStep (fun b => Except.ok (exportBatch b assetId upsert))
            l bs) r).totalFailed = r.totalFailed := by
  intro k
  induction k with
  | zero => intro _ r; simp
  | succ k ih =>
    intro hpos r
    rw [List.range_succ, List.foldl_append, List.map_append,
      List.sum_append]
    simp only [List.foldl_cons, List.foldl_nil, List.map_cons,
      List.map_nil, List.sum_cons, List.sum_nil]
    obtain ⟨ih1, ih2⟩ := ih (fun i hi => hpos i (Nat.lt_succ_of_lt hi)) r
    obtain ⟨s1, s2⟩ := exportStep_counts_ok l bs assetId upsert _ k
      (hpos k (Nat.lt_succ_self k))
    rw [s1, s2, ih1, ih2]
    exact ⟨by omega, rfl⟩

theorem countP_flatten_eq {α : Type} (p : α → Bool) :
    ∀ (L : List (List α)), L.flatten.countP p = (L.map (List.countP p)).sum := by
  intro L
  induction L with
  | nil => simp
  | cons x xs ih =>
    rw [List.flatten_cons, List.countP_append, List.map_cons, List.sum_cons,
      ih]

/-- C4 counterexample to the claim as stated: a single record whose
upsert fails is reported as `totalSuccess = 1`, `totalFailed = 0` — the
batch-level `success` stays `true`, so the orchestrator counts
`successCount || batch.length` (falling back to the batch length when
the count is zero) as successes and never adds per-record failures to
`totalFailed` (`exportToExternalAPI` composed with `exportBatch`). -/
theorem c4_perrecord_failures_not_counted :
    exportToExternalAPI ["rec1"] 50
      (fun b => Except.ok (exportBatch b (fun s => s)
        (fun _ => ⟨false, some "upsert failed"⟩))) =
      ⟨1, 1, 0, []⟩ := by
  decide

/-- C4 amended: the orchestrator partitions the records into
`ceil(n/batchSize)` contiguous slices in original order (their
concatenation is the input; for n = 237, batchSize = 50 the slice sizes
are [50,50,50,50,37]); it continues past every slice regardless of
outcome — `totalProcessed = n` for every batch function, including
throwing ones; and when composed with `exportBatch`, `totalFailed` is
always 0 and `totalSuccess` equals the number of records whose upsert
reported success provided every slice has at least one success (with an
all-failure slice the `successCount || batch.length` fallback counts the
whole slice as successes instead). -/
theorem c4_batch_partition_and_counts :
    (∀ (α : Type) (l : List α) (bs : Nat), 0 < bs →
      ((List.range (totalBatchesOf l.length bs)).map
        (batchOf l bs)).flatten = l) ∧
    ((List.range (totalBatchesOf 237 50)).map
        (fun i => (batchOf (List.range 237) 50 i).length)) =
      [50, 50, 50, 50, 37] ∧
    (∀ (α : Type) (l : List α) (bs : Nat)
        (f : List α → Except String BatchResult), 0 < bs →
      (exportToExternalAPI l bs f).totalProcessed = l.length) ∧
    (∀ (α : Type) (l : List α) (bs : Nat) (assetId : α → String)
        (upsert : α → SyncOutcome), 0 < bs →
      (∀ i < totalBatchesOf l.length bs,
        0 < (batchOf l bs i).countP (fun a => (upsert a).success)) →
      (exportToExternalAPI l bs
          (fun b => Except.ok (exportBatch b assetId upsert))).totalSuccess =
        l.countP (fun a => (upsert a).success) ∧
      (exportToExternalAPI l bs
          (fun b => Except.ok (exportBatch b assetId upsert))).totalFailed =
        0) := by
  refine ⟨?_, by decide, ?_, ?_⟩
  · intro α l bs hbs
    exact join_batches bs hbs _ l (length_le_batches_mul l.length bs hbs)
  · intro α l bs f hbs
    unfold exportToExternalAPI
    by_cases h0 : l.length = 0
    · rw [if_pos h0]
      exact h0.symm
    · rw [if_neg h0, export_fold_processed]
      have hjoin := join_batches bs hbs (totalBatchesOf l.length bs) l
        (length_le_batches_mul l.length bs hbs)
      have hlen := congrArg List.length hjoin
      rw [List.length_flatten, List.map_map] at hlen
      simpa using hlen
  · intro α l bs assetId upsert hbs hpos
    by_cases h0 : l.length = 0
    · have hb : l = [] := List.eq_nil_of_length_eq_zero h0
      subst hb
      exact ⟨by simp [exportToExternalAPI], by simp [exportToExternalAPI]⟩
    · obtain ⟨h1, h2⟩ := export_fold_counts l bs assetId upsert
        (totalBatchesOf l.length bs) hpos ⟨0, 0, 0, []⟩
      have hjoin := join_batches bs hbs (totalBatchesOf l.length bs) l
        (length_le_batches_mul l.length bs hbs)
      have hcnt := congrArg (List.countP (fun a => (upsert a).success))
        hjoin
      rw [countP_flatten_eq, List.map_map] at hcnt
      constructor
      · unfold exportToExternalAPI
        rw [if_neg h0, h1]
        simpa using hcnt
      · unfold exportToExternalAPI
        rw [if_neg h0, h2]

/-- Witness for C4 amended: three records in batches of two, all
upserts succeeding: 3 processed, 3 successes, 0 failures. -/
theorem c4_batch_partition_and_counts_witness :
    (exportToExternalAPI ["a", "b", "c"] 2
        (fun b => Except.ok (exportBatch b (fun s => s)
          (fun _ => ⟨true, none⟩)))).totalSuccess = 3 ∧
    (exportToExternalAPI ["a", "b", "c"] 2
        (fun b => Except.ok (exportBatch b (fun s => s)
          (fun _ => ⟨true, none⟩)))).totalFailed = 0 := by
  have h := c4_batch_partition_and_counts.2.2.2 String ["a", "b", "c"] 2
    (fun s => s) (fun _ => ⟨true, none⟩) (by decide)
    (by decide)
  exact ⟨h.1.trans (by decide), h.2⟩

end SFKC
